import Mathlib

/-!
Verification of the debounce coordinator and session/memory lifecycle manager
implemented in `src/Cursor/User/History/733b3e8d/9HPk.py`.

Modelling conventions (shallow embedding):
* Wall-clock instants handled by the debounce store (`datetime.now().timestamp()`
  floats with sub-second precision) are modelled as integer microseconds
  (`Tempo := Int`); every timestamp the Python code manipulates is an integer
  number of microseconds, and the float tolerance `0.1` seconds of
  `obter_e_limpar_mensagens_acumuladas` is `100000` microseconds.
* DynamoDB items are modelled as records / association lists; a missing
  attribute is `Option.none` (the `REMOVE timer_timestamp` update sets the
  field to `none`, and `item.get('timer_timestamp', 0)` reads it with
  default `0`).
* The DynamoDB calls themselves are replaced by explicit state passing: each
  function receives the current stored item and returns the item it leaves
  behind, together with its Python return value.  `agendar_processamento`
  performs no state change; it is modelled by the payload it sends.
-/

/-- Wall-clock instant in integer microseconds since the epoch. -/
abbrev Tempo := Int

/-- Inbound message payload, the fields read out of `mensagem.get(...)` by
`armazenar_mensagem_pendente` (each `get` has default `''`, so the fields are
plain strings). -/
structure MensagemEntrada where
  texto : String
  tipo : String
  codMensagem : String
  nomeArquivo : String
  localizacao : String
  mensagemResposta : String
deriving DecidableEq

/-- One entry of `pending_messages`, exactly the dict appended by
`armazenar_mensagem_pendente` (the `timestamp` field is the arrival
instant `timestamp_atual`). -/
structure MensagemArmazenada where
  texto : String
  tipo : String
  timestamp : Tempo
  codMensagem : String
  nomeArquivo : String
  localizacao : String
  mensagemResposta : String
deriving DecidableEq

/-- Builds the `pending_messages` entry for an inbound message arriving at
instant `t`. -/
def montarMensagem (m : MensagemEntrada) (t : Tempo) : MensagemArmazenada :=
  ⟨m.texto, m.tipo, t, m.codMensagem, m.nomeArquivo, m.localizacao, m.mensagemResposta⟩

/-- The debounce-store item (one row of the `MOTORISTAS_SESSOES_TABLE` per
correspondent).  `timer_timestamp = none` models the attribute having been
removed by the `REMOVE timer_timestamp` update expression. -/
structure SessaoItem where
  timer_timestamp : Option Tempo
  pending_messages : List MensagemArmazenada
  last_message_timestamp : Tempo
  last_message_text : String
  timer_active : Bool
deriving DecidableEq

/-- The dict returned by `armazenar_mensagem_pendente`.  `mensagens_acumuladas`
is `none` on the error path (that dict carries an `erro` key instead), and
`timer_resetado` is present (true) only on the extension path. -/
structure ResultadoArmazenar where
  deve_processar : Bool
  is_first_message : Bool
  mensagens_acumuladas : Option Nat
  timer_resetado : Bool
  erro : Bool
deriving DecidableEq

/-- The asynchronous self-invocation payload built by `agendar_processamento`. -/
structure PayloadAgendamento where
  acao : String
  codConversa : String
  timer_timestamp : Tempo
  delay_seconds : Nat
deriving DecidableEq

/-- `MESSAGE_ACCUMULATION_DELAY` (env default `"10"` seconds). -/
def MESSAGE_ACCUMULATION_DELAY : Nat := 10

/-- `MESSAGE_EXTENSION_DELAY` (env default `"3"` seconds). -/
def MESSAGE_EXTENSION_DELAY : Nat := 3

/-- `agendar_processamento(cod_conversa, timer_timestamp, delay_seconds)`:
the payload of the fire-and-forget self-invocation it issues. -/
def agendar_processamento (cod_conversa : String) (timer_timestamp : Tempo)
    (delay_seconds : Nat) : PayloadAgendamento :=
  ⟨"processar_mensagens_acumuladas", cod_conversa, timer_timestamp, delay_seconds⟩

/-- `armazenar_mensagem_pendente(cod_conversa, mensagem)` (happy path, no
store exception).  `item` is the current debounce-store row for the
correspondent (the `get_item` result) and `timestamp_atual` the current
instant.  Returns the row left in the store, the Python return dict, and the
scheduling payload issued. -/
def armazenar_mensagem_pendente (cod_conversa : String) (item : Option SessaoItem)
    (mensagem : MensagemEntrada) (timestamp_atual : Tempo) :
    Option SessaoItem × ResultadoArmazenar × PayloadAgendamento :=
  match item with
  | some it =>
    if it.timer_active then
      let pending := it.pending_messages ++ [montarMensagem mensagem timestamp_atual]
      (some { it with
                pending_messages := pending,
                last_message_timestamp := timestamp_atual,
                last_message_text := mensagem.texto,
                timer_timestamp := some timestamp_atual },
       ⟨false, false, some pending.length, true, false⟩,
       agendar_processamento cod_conversa timestamp_atual MESSAGE_EXTENSION_DELAY)
    else
      (some ⟨some timestamp_atual, [montarMensagem mensagem timestamp_atual],
             timestamp_atual, mensagem.texto, true⟩,
       ⟨false, true, some 1, false, false⟩,
       agendar_processamento cod_conversa timestamp_atual MESSAGE_ACCUMULATION_DELAY)
  | none =>
      (some ⟨some timestamp_atual, [montarMensagem mensagem timestamp_atual],
             timestamp_atual, mensagem.texto, true⟩,
       ⟨false, true, some 1, false, false⟩,
       agendar_processamento cod_conversa timestamp_atual MESSAGE_ACCUMULATION_DELAY)

/-- `armazenar_mensagem_pendente` with its `try/except` wrapper.
`falha_leitura` models the `get_item` call raising, `falha_escrita` the
`update_item`/`put_item` call raising (in either case the store is left
unchanged, nothing is scheduled, and the `except` branch returns the error
dict `{'deve_processar': True, 'is_first_message': True, 'erro': ...}`).
Exceptions inside `agendar_processamento` are caught by its own handler and
never reach this function. -/
def armazenar_mensagem_pendente_excecoes (falha_leitura falha_escrita : Bool)
    (cod_conversa : String) (item : Option SessaoItem)
    (mensagem : MensagemEntrada) (timestamp_atual : Tempo) :
    Option SessaoItem × ResultadoArmazenar × Option PayloadAgendamento :=
  if falha_leitura then (item, ⟨true, true, none, false, true⟩, none)
  else if falha_escrita then (item, ⟨true, true, none, false, true⟩, none)
  else
    let r := armazenar_mensagem_pendente cod_conversa item mensagem timestamp_atual
    (r.1, r.2.1, some r.2.2)

/-- `obter_e_limpar_mensagens_acumuladas(cod_conversa, timer_timestamp)`:
returns the Python return value (the drained message list, `[]` when the
wakeup is stale) and the debounce-store row left behind.  The fencing check
is `abs(stored_timer - timer_timestamp) > 0.1` seconds, i.e. strictly more
than `100000` microseconds; `stored_timer` reads the attribute with default
`0` (`item.get('timer_timestamp', 0)`). -/
def obter_e_limpar_mensagens_acumuladas (cod_conversa : String)
    (item : Option SessaoItem) (timer_timestamp : Tempo) :
    List MensagemArmazenada × Option SessaoItem :=
  match item with
  | none => ([], none)
  | some it =>
    let stored_timer : Tempo := it.timer_timestamp.getD 0
    if (100000 : Int) < |stored_timer - timer_timestamp| then ([], some it)
    else if it.pending_messages = [] then ([], some it)
    else
      (it.pending_messages,
       some { it with pending_messages := [], timer_active := false,
                      timer_timestamp := none })

/-- `item and item.get('timer_active')`: whether the stored row exists and has
an active timer. -/
def timerAtivo : Option SessaoItem → Bool
  | some it => it.timer_active
  | none => false

/-- One externally-visible event of the debounce subsystem for a fixed
correspondent: an inbound message handled by `armazenar_mensagem_pendente`,
or a scheduled wakeup reaching `obter_e_limpar_mensagens_acumuladas` with the
fencing value it carries. -/
inductive Evento where
  | chegada (mensagem : MensagemEntrada) (t : Tempo)
  | disparo (fencing : Tempo)
deriving DecidableEq

/-- Effect of one event on the stored debounce row; the second component
records the message batch returned by a `disparo` (Fire) event. -/
def passo (cod : String) (s : Option SessaoItem) :
    Evento → Option SessaoItem × List (List MensagemArmazenada)
  | .chegada m t => ((armazenar_mensagem_pendente cod s m t).1, [])
  | .disparo f =>
      let r := obter_e_limpar_mensagens_acumuladas cod s f
      (r.2, [r.1])

/-- Runs a sequence of events; returns the final stored row and, in order,
the batch returned by each Fire call of the sequence. -/
def execEventos (cod : String) (s : Option SessaoItem) :
    List Evento → Option SessaoItem × List (List MensagemArmazenada)
  | [] => (s, [])
  | e :: resto =>
      let p := passo cod s e
      let r := execEventos cod p.1 resto
      (r.1, p.2 ++ r.2)

/-- The inbound messages of an event sequence, in arrival order, paired with
their arrival instants. -/
def chegadas : List Evento → List (MensagemEntrada × Tempo)
  | [] => []
  | .chegada m t :: resto => (m, t) :: chegadas resto
  | .disparo _ :: resto => chegadas resto

/-- Holds when every arrival after the first one happens while the stored
debounce row still has an active timer (`houve` records whether some arrival
already happened). -/
def chegadasSobreTimerAtivo (cod : String) :
    Option SessaoItem → Bool → List Evento → Bool
  | _, _, [] => true
  | s, houve, .chegada m t :: resto =>
      (!houve || timerAtivo s) &&
        chegadasSobreTimerAtivo cod (passo cod s (.chegada m t)).1 true resto
  | s, houve, .disparo f :: resto =>
      chegadasSobreTimerAtivo cod (passo cod s (.disparo f)).1 houve resto

/-- The stored row is an armed batch holding exactly the messages of `c`, its
fencing token being the arrival instant of the last message. -/
def EstadoLote (s : Option SessaoItem) (c : List (MensagemEntrada × Tempo)) : Prop :=
  ∃ it, s = some it ∧
    it.pending_messages = c.map (fun p => montarMensagem p.1 p.2) ∧
    it.timer_active = true ∧
    it.timer_timestamp = (c.getLast?).map Prod.snd

/-- The stored row has been drained by a successful Fire: no pending
messages, inactive timer, fencing attribute removed. -/
def EstadoDrenado (s : Option SessaoItem) : Prop :=
  ∃ it, s = some it ∧ it.pending_messages = [] ∧ it.timer_active = false ∧
    it.timer_timestamp = none

/-! ### Contact normalization (`normalizar_telefone`) -/

/-- `l[-s.length:] == s`, i.e. Python `l.endswith(s)` on character lists. -/
def termina_em (l sufixo : List Char) : Bool :=
  decide (l.drop (l.length - sufixo.length) = sufixo)

/-- Python slice `l[a:b]` (for nonnegative bounds) on character lists. -/
def fatia (l : List Char) (a b : Nat) : List Char := (l.drop a).take (b - a)

/-- The branch ladder of `normalizar_telefone` applied to the cleaned
(digit-only) number `limpo`. -/
def normalizar_telefone_limpo (limpo : List Char) : String :=
  if limpo.take 2 = ['5', '5'] ∧ limpo.length = 13 then String.mk limpo
  else if limpo.length = 11 then String.mk ('5' :: '5' :: limpo)
  else if limpo.length = 13 ∧ ¬ limpo.take 2 = ['5', '5'] then String.mk limpo
  else if 13 < limpo.length then
    if termina_em limpo (limpo.drop (limpo.length - 13)) ∧
        fatia limpo (limpo.length - 13) (limpo.length - 11) = ['5', '5'] then
      String.mk (limpo.drop (limpo.length - 13))
    else String.mk limpo
  else if limpo.length < 11 then String.mk limpo
  else String.mk limpo

/-- `normalizar_telefone(telefone)`: canonicalizes a phone number to the
13-digit `55` + DDD + number form when it can, otherwise applies the
best-effort pass-through policy of the source (which never raises).
`str.isdigit` is modelled as ASCII `Char.isDigit` (the digit class this
system feeds it). -/
def normalizar_telefone (telefone : String) : String :=
  if telefone = "" then telefone
  else normalizar_telefone_limpo (telefone.toList.filter Char.isDigit)

example : normalizar_telefone "(11) 99999-0000" = "5511999990000" := by decide
example : normalizar_telefone "5511999990000" = "5511999990000" := by decide

/-! ### Clock / identifier deriver -/

/-- The digit character for `n % 10`. -/
def algarismoChar (n : Nat) : Char := Char.ofNat (48 + n % 10)

/-- Fuel-driven decimal rendering (structural recursion so that concrete
instances evaluate inside the kernel). -/
def algarismosAux : Nat → Nat → List Char
  | 0, _ => []
  | fuel + 1, n =>
      if n < 10 then [algarismoChar n]
      else algarismosAux fuel (n / 10) ++ [algarismoChar (n % 10)]

/-- Decimal rendering of a natural number, Python `str(n)`. -/
def algarismos (n : Nat) : List Char := algarismosAux (n + 1) n

/-- Decimal rendering of an integer, Python `str(n)`. -/
def inteiroParaAlgarismos : Int → List Char
  | .ofNat n => algarismos n
  | .negSucc n => '-' :: algarismos (n + 1)

/-- Zero-padding to `largura` characters, as done by the `%Y`/`%m`/`%d`/`%H`/
`%M`/`%S`/`%f` directives of `strftime`. -/
def preencher (largura n : Nat) : List Char :=
  List.replicate (largura - (algarismos n).length) '0' ++ algarismos n

/-- A broken-down UTC instant (the fields of a `datetime` with
`tzinfo=timezone.utc`). -/
structure DataHora where
  ano : Nat
  mes : Nat
  dia : Nat
  hora : Nat
  minuto : Nat
  segundo : Nat
  micro : Nat
deriving DecidableEq

/-- Gregorian leap-year test. -/
def bissexto (ano : Nat) : Bool :=
  ano % 4 == 0 && (ano % 100 != 0 || ano % 400 == 0)

/-- Number of days of month `mes` of year `ano`. -/
def diasNoMes (ano mes : Nat) : Nat :=
  if mes == 2 then (if bissexto ano then 29 else 28)
  else if mes == 4 || mes == 6 || mes == 9 || mes == 11 then 30
  else 31

/-- Days from 1970-01-01 to the civil date `ano-mes-dia` (standard
era/year-of-era civil-calendar computation; all intermediate quantities are
nonnegative because `datetime` years are at least 1). -/
def diasDesdeCivil (ano mes dia : Nat) : Int :=
  let a : Nat := if mes ≤ 2 then ano - 1 else ano
  let era : Nat := a / 400
  let anoDaEra : Nat := a - era * 400
  let mesDeslocado : Nat := (mes + 9) % 12
  let diaDoAno : Nat := (153 * mesDeslocado + 2) / 5 + (dia - 1)
  let diaDaEra : Nat := anoDaEra * 365 + anoDaEra / 4 - anoDaEra / 100 + diaDoAno
  (era * 146097 + diaDaEra : Int) - 719468

/-- The range checks performed by the `datetime(...)` constructor (which
raises `ValueError` outside them). -/
def datetime_valido (ano mes dia hora minuto segundo micro : Int) : Prop :=
  1 ≤ ano ∧ ano ≤ 9999 ∧ 1 ≤ mes ∧ mes ≤ 12 ∧ 1 ≤ dia ∧
  dia ≤ (diasNoMes ano.toNat mes.toNat : Int) ∧ 0 ≤ hora ∧ hora < 24 ∧
  0 ≤ minuto ∧ minuto < 60 ∧ 0 ≤ segundo ∧ segundo < 60 ∧
  0 ≤ micro ∧ micro < 1000000

instance (ano mes dia hora minuto segundo micro : Int) :
    Decidable (datetime_valido ano mes dia hora minuto segundo micro) := by
  unfold datetime_valido; infer_instance

/-- `datetime(ano, mes, dia, hora, minuto, segundo, micro, tzinfo=utc)`:
`none` models the constructor raising `ValueError`. -/
def criarDatetime (ano mes dia hora minuto segundo micro : Int) : Option DataHora :=
  if datetime_valido ano mes dia hora minuto segundo micro then
    some ⟨ano.toNat, mes.toNat, dia.toNat, hora.toNat, minuto.toNat,
          segundo.toNat, micro.toNat⟩
  else none

/-- `int(dt.timestamp())` for a UTC `datetime`: whole seconds since the
epoch, truncated toward zero (the `+ 1` branch accounts for truncation of
negative fractional instants). -/
def timestampDe (d : DataHora) : Int :=
  let segundos : Int :=
    diasDesdeCivil d.ano d.mes d.dia * 86400 + d.hora * 3600 + d.minuto * 60 + d.segundo
  if segundos < 0 ∧ d.micro ≠ 0 then segundos + 1 else segundos

example : timestampDe ⟨1970, 1, 1, 0, 0, 0, 0⟩ = 0 := by decide
example : timestampDe ⟨2023, 11, 14, 22, 13, 20, 0⟩ = 1700000000 := by decide

/-- `now.strftime("%Y-%m-%dT%H:%M:%S.%fZ")` — the session-pointer format. -/
def strftime_completo (d : DataHora) : String :=
  String.mk (preencher 4 d.ano ++ '-' :: preencher 2 d.mes ++ '-' :: preencher 2 d.dia ++
    'T' :: preencher 2 d.hora ++ ':' :: preencher 2 d.minuto ++ ':' :: preencher 2 d.segundo ++
    '.' :: preencher 6 d.micro ++ ['Z'])

/-- `now.strftime("%Y-%m-%dT%H:%M:%SZ")` — the hour-bucket format. -/
def strftime_hora (d : DataHora) : String :=
  String.mk (preencher 4 d.ano ++ '-' :: preencher 2 d.mes ++ '-' :: preencher 2 d.dia ++
    'T' :: preencher 2 d.hora ++ ':' :: preencher 2 d.minuto ++ ':' :: preencher 2 d.segundo ++
    ['Z'])

/-- `now.replace(minute=0, second=0, microsecond=0)`. -/
def truncarHora (d : DataHora) : DataHora :=
  { d with minuto := 0, segundo := 0, micro := 0 }

example : strftime_hora (truncarHora ⟨2023, 11, 14, 22, 13, 20, 5⟩) = "2023-11-14T22:00:00Z" := by
  decide

/-- Python `str.strip()` (whitespace from both ends) on character lists. -/
def tiraEspacos (l : List Char) : List Char :=
  ((l.dropWhile Char.isWhitespace).reverse.dropWhile Char.isWhitespace).reverse

/-- Value of a nonempty all-digit character list; `none` otherwise
(`int(...)` raising `ValueError`). -/
def digitosValor (l : List Char) : Option Nat :=
  if l ≠ [] ∧ l.all Char.isDigit then
    some (l.foldl (fun a c => a * 10 + (c.toNat - 48)) 0)
  else none

/-- Python `int(s)` on a character list: optional leading minus sign followed
by digits. -/
def inteiroDe : List Char → Option Int
  | '-' :: resto => (digitosValor resto).map (fun n => -(n : Int))
  | l => (digitosValor l).map (fun n => (n : Int))

/-- All-digit list read as a nonnegative integer (the digit groups of an ISO
timestamp). -/
def naturalDe (l : List Char) : Option Int :=
  (digitosValor l).map (fun n => (n : Int))

/-- Fractional-second digits scaled to microseconds. -/
def fracaoMicro (l : List Char) : Option Int :=
  if l ≠ [] ∧ l.length ≤ 6 ∧ l.all Char.isDigit then
    (digitosValor l).map (fun n => (n * 10 ^ (6 - l.length) : Int))
  else none

/-- `datetime.fromisoformat` restricted to the naive timestamp shapes this
module produces and stores: `YYYY-MM-DD`, `YYYY-MM-DDTHH:MM:SS` and
`YYYY-MM-DDTHH:MM:SS.f…f` (1–6 fractional digits); offset-bearing forms are
treated as unparseable. -/
def fromisoformat (l : List Char) : Option DataHora :=
  match l with
  | [a1, a2, a3, a4, '-', m1, m2, '-', d1, d2] =>
      match naturalDe [a1, a2, a3, a4], naturalDe [m1, m2], naturalDe [d1, d2] with
      | some y, some mo, some dd => criarDatetime y mo dd 0 0 0 0
      | _, _, _ => none
  | [a1, a2, a3, a4, '-', m1, m2, '-', d1, d2, 'T',
     h1, h2, ':', n1, n2, ':', s1, s2] =>
      match naturalDe [a1, a2, a3, a4], naturalDe [m1, m2], naturalDe [d1, d2],
            naturalDe [h1, h2], naturalDe [n1, n2], naturalDe [s1, s2] with
      | some y, some mo, some dd, some hh, some mi, some ss =>
          criarDatetime y mo dd hh mi ss 0
      | _, _, _, _, _, _ => none
  | a1 :: a2 :: a3 :: a4 :: '-' :: m1 :: m2 :: '-' :: d1 :: d2 :: 'T' ::
    h1 :: h2 :: ':' :: n1 :: n2 :: ':' :: s1 :: s2 :: '.' :: resto =>
      match naturalDe [a1, a2, a3, a4], naturalDe [m1, m2], naturalDe [d1, d2],
            naturalDe [h1, h2], naturalDe [n1, n2], naturalDe [s1, s2],
            fracaoMicro resto with
      | some y, some mo, some dd, some hh, some mi, some ss, some micro =>
          criarDatetime y mo dd hh mi ss micro
      | _, _, _, _, _, _, _ => none
  | _ => none

/-- `_parse_timestamp_to_unix(tempo_str)`: accepts the ISO form (trailing `Z`
stripped first, naive result assumed UTC), the short pure-digit Unix form
(at most 10 characters), and the compact positional form; `none` models the
function raising (`ValueError`), which callers must catch. -/
def _parse_timestamp_to_unix (tempo_str : String) : Option Int :=
  if tempo_str = "" then none
  else
    let t := tiraEspacos tempo_str.toList
    if t.contains 'T' && t.contains '-' then
      let t2 := if t.getLast? = some 'Z' then t.dropLast else t
      (fromisoformat t2).map timestampDe
    else if t.length ≤ 10 then
      inteiroDe t
    else
      match inteiroDe (fatia t 0 4), inteiroDe (fatia t 4 6), inteiroDe (fatia t 6 8),
            inteiroDe (fatia t 8 10), inteiroDe (fatia t 10 12), inteiroDe (fatia t 12 14) with
      | some y, some mo, some dd, some hh, some mi, some ss =>
          match (if 20 ≤ t.length then inteiroDe (fatia t 14 20) else some 0) with
          | some micro => (criarDatetime y mo dd hh mi ss micro).map timestampDe
          | none => none
      | _, _, _, _, _, _ => none

example : _parse_timestamp_to_unix "1700000000" = some 1700000000 := by decide
example : _parse_timestamp_to_unix "2023-11-14T22:13:20.000005Z" = some 1700000000 := by decide
example : _parse_timestamp_to_unix "20231114221320" = some 1700000000 := by decide

/-- `_is_memory_valid(tempo_memoria_str)` evaluated at current instant
`agora` (Unix seconds): the memory pointer is valid while strictly less than
`604800` seconds old; unparseable input makes it invalid (the internal
`except` returns `False`). -/
def _is_memory_valid (tempo_memoria_str : String) (agora : Int) : Bool :=
  if tempo_memoria_str = "" then false
  else
    match _parse_timestamp_to_unix tempo_memoria_str with
    | some ts => decide (agora - ts < 604800)
    | none => false

/-! ### Negotiation ledger records -/

/-- A DynamoDB attribute value of the `negociacao` table, with Python
truthiness. -/
inductive Valor where
  | texto (s : String)
  | numero (n : Int)
  | booleano (b : Bool)
  | lista (itens : List Valor)
  | objeto (pares : List (String × Valor))
  | nulo

/-- Python truthiness of an attribute value (`0`, `''`, `[]`, `{}`, `None`
and `False` are falsy). -/
def verdadeiro : Valor → Bool
  | .texto s => !s.data.isEmpty
  | .numero n => n != 0
  | .booleano b => b
  | .lista itens => !itens.isEmpty
  | .objeto pares => !pares.isEmpty
  | .nulo => false

/-- Python `str(...)` of an attribute value, for the kinds this module ever
converts (timestamps stored as strings or numbers); list/map/None/bool
renderings are never exercised by this code. -/
def valorStr : Valor → String
  | .texto s => s
  | .numero n => String.mk (inteiroParaAlgarismos n)
  | .booleano b => if b then "True" else "False"
  | .nulo => "None"
  | .lista _ => ""
  | .objeto _ => ""

/-- A `negociacao` item: attribute names mapped to values, first occurrence
wins on lookup. -/
abbrev Registro := List (String × Valor)

/-- Attribute lookup, Python `item.get(campo)` / `campo in item`. -/
def obter (r : Registro) (campo : String) : Option Valor :=
  (r.find? (fun p => p.1 = campo)).map (fun p => p.2)

/-- `item[campo] = v`: overwrite in place if present, else append. -/
def definir (r : Registro) (campo : String) (v : Valor) : Registro :=
  if (r.find? (fun p => p.1 = campo)).isSome then
    r.map (fun p => if p.1 = campo then (campo, v) else p)
  else r ++ [(campo, v)]

/-- Python `item.update(novos)`. -/
def atualizar (r : Registro) (novos : Registro) : Registro :=
  novos.foldl (fun acc p => definir acc p.1 p.2) r

/-- Python `del item[campo]`. -/
def remover (r : Registro) (campo : String) : Registro :=
  r.filter (fun p => p.1 ≠ campo)

/-! ### Session/memory lifecycle manager -/

/-- `_get_session_timestamp_from_negociacao(telefone)` applied to the latest
ledger record (`none` when the query returns no item): yields
`(tempo_sessao, session_id)`, where a missing/falsy `session_id` becomes
`None`. -/
def _get_session_timestamp_from_negociacao (prev : Option Registro) :
    Option String × Option String :=
  match prev with
  | none => (none, none)
  | some item =>
    match obter item "tempo_sessao" with
    | none => (none, none)
    | some v =>
      let session_id :=
        match obter item "session_id" with
        | some w => if verdadeiro w then some (valorStr w) else none
        | none => none
      (some (valorStr v), session_id)

/-- The `immutable_fields` allow-list of `_get_previous_negotiation_data`. -/
def immutable_fields : List String :=
  ["carga_id", "veiculo_cavalo", "veiculo_cavalo_id", "id_veiculo_equipamento",
   "equipamento_ids", "tipo_veiculo_id", "tipo_equipamento_id", "tempo_memoria",
   "placa_cavalo", "placa_equipamento"]

/-- `_get_previous_negotiation_data(telefone)` applied to the latest ledger
record: keeps an allow-listed field only when it is present **and truthy**
(`if field in prev_item and prev_item[field]`). -/
def _get_previous_negotiation_data (prev : Option Registro) : Registro :=
  match prev with
  | none => []
  | some prev_item =>
      immutable_fields.filterMap fun campo =>
        match obter prev_item campo with
        | some v => if verdadeiro v then some (campo, v) else none
        | none => none

/-- The fresh item assembled by `_save_session_timestamp_to_negociacao`
before inheritance: the three mandatory fields plus, when given,
`negociacao_iniciada_em`. -/
def itemNovo (telefone tempo_sessao session_id : String)
    (negociacao_iniciada_em : Option String) : Registro :=
  let base : Registro :=
    [("telefone", .texto telefone), ("tempo_sessao", .texto tempo_sessao),
     ("session_id", .texto session_id)]
  match negociacao_iniciada_em with
  | some n => base ++ [("negociacao_iniciada_em", Valor.texto n)]
  | none => base

/-- The inherited data after the `tempo_memoria` validity check of
`_save_session_timestamp_to_negociacao`: an expired inherited memory pointer
is deleted, everything else passes through. -/
def herancaFinal (prev : Option Registro) (agora : Int) : Registro :=
  let inherited0 := _get_previous_negotiation_data prev
  match obter inherited0 "tempo_memoria" with
  | some v =>
      if _is_memory_valid (valorStr v) agora then inherited0
      else remover inherited0 "tempo_memoria"
  | none => inherited0

/-- `_save_session_timestamp_to_negociacao(telefone, tempo_sessao,
session_id, negociacao_iniciada_em)`: the item written to the ledger (`none`
when the falsy-parameter guard makes the function return `False` without
writing).  `prev` is the latest existing record (read back internally for
fact inheritance) and `agora` the current Unix time used by
`_is_memory_valid`. -/
def _save_session_timestamp_to_negociacao (prev : Option Registro)
    (telefone tempo_sessao session_id : String)
    (negociacao_iniciada_em : Option String) (agora : Int) : Option Registro :=
  if telefone = "" ∨ tempo_sessao = "" ∨ session_id = "" then none
  else
    let item := itemNovo telefone tempo_sessao session_id negociacao_iniciada_em
    if (_get_previous_negotiation_data prev).isEmpty then some item
    else some (atualizar item (herancaFinal prev agora))

/-- Return value of `_get_or_create_session_id`, together with the ledger
record the call persisted (if it wrote one). -/
structure ResultadoSessao where
  session_id : String
  session_renewed : Bool
  registro_salvo : Option Registro

/-- `if not x` on an optional string. -/
def textoFalsy : Option String → Bool
  | none => true
  | some s => s.data.isEmpty

/-- `_get_or_create_session_id(telefone)` evaluated against the latest
ledger record `prev` at instant `now`:  returns the session pointer, the
`session_renewed` flag, and the record persisted (if any).  `none` models the
unhandled `ValueError` of `_parse_timestamp_to_unix` on a malformed stored
`session_id` propagating out. -/
def _get_or_create_session_id (telefone : String) (prev : Option Registro)
    (now : DataHora) : Option ResultadoSessao :=
  if telefone = "" then some ⟨strftime_completo now, false, none⟩
  else
    let existentes := _get_session_timestamp_from_negociacao prev
    let current_tempo_sessao := strftime_hora (truncarHora now)
    let current_timestamp := timestampDe now
    if textoFalsy existentes.1 || textoFalsy existentes.2 then
      let new_session_id := strftime_completo now
      some ⟨new_session_id, false,
        _save_session_timestamp_to_negociacao prev telefone current_tempo_sessao
          new_session_id (some (strftime_completo now)) current_timestamp⟩
    else
      let existing_tempo_sessao := existentes.1.getD ""
      let existing_session_id := existentes.2.getD ""
      match _parse_timestamp_to_unix existing_session_id with
      | none => none
      | some session_id_timestamp =>
        let session_age_seconds := current_timestamp - session_id_timestamp
        if session_age_seconds < 3600 then
          if existing_tempo_sessao = current_tempo_sessao then
            some ⟨existing_session_id, false, none⟩
          else
            some ⟨existing_session_id, false,
              _save_session_timestamp_to_negociacao prev telefone
                current_tempo_sessao existing_session_id
                (some (strftime_completo now)) current_timestamp⟩
        else
          some ⟨strftime_completo now, true,
            _save_session_timestamp_to_negociacao prev telefone
              current_tempo_sessao (strftime_completo now)
              (some (strftime_completo now)) current_timestamp⟩

/-- A sample inbound text message ("Oi"). -/
def mensagemOi : MensagemEntrada := ⟨"Oi", "TEXT", "", "", "", ""⟩

/-- A sample inbound text message ("bom dia"). -/
def mensagemBomDia : MensagemEntrada := ⟨"bom dia", "TEXT", "", "", "", ""⟩

/-- A sample prior ledger record: session pointer issued at Unix second
`1700000000` (2023-11-14T22:13:20Z) in the 22:00 bucket. -/
def registroExemplo : Registro :=
  [("tempo_sessao", Valor.texto "2023-11-14T22:00:00Z"),
   ("session_id", Valor.texto "1700000000")]

/-- 3599 seconds after Unix second `1700000000`. -/
def instante3599 : DataHora := ⟨2023, 11, 14, 23, 13, 19, 0⟩

/-- A prior ledger record carrying a truthy cargo fact. -/
def registroComCarga : Registro :=
  [("tempo_sessao", Valor.texto "2023-11-14T22:00:00Z"),
   ("session_id", Valor.texto "1700000000"),
   ("carga_id", Valor.numero 42),
   ("oferta_atual", Valor.numero 7)]

/-- A prior ledger record whose `carga_id` is present but zero (falsy). -/
def registroCargaZero : Registro :=
  [("tempo_sessao", Valor.texto "2023-11-14T22:00:00Z"),
   ("session_id", Valor.texto "1700000000"),
   ("carga_id", Valor.numero 0)]

/-- A prior ledger record carrying a two-day-old memory pointer. -/
def registroComMemoria : Registro :=
  [("tempo_sessao", Valor.texto "2023-11-14T22:00:00Z"),
   ("session_id", Valor.texto "1700000000"),
   ("tempo_memoria", Valor.texto "2023-11-13T22:13:20.000000Z")]

/-- 6400 seconds after Unix second `1700000000` (hour bucket 00:00 of the
next day). -/
def instante6400 : DataHora := ⟨2023, 11, 15, 0, 0, 0, 0⟩

/-- The spec scenario: "Oi" then "bom dia" two seconds later; the first
(superseded) wakeup fires stale, the re-armed wakeup drains the batch. -/
def eventosExemplo : List Evento :=
  [Evento.chegada mensagemOi 1000000, Evento.chegada mensagemBomDia 3000000,
   Evento.disparo 1000000, Evento.disparo 3000000]

/-!
## Theorems
-/

/-- C2 (counterexample): a stored row with `timer_active = False` whose
removed-timer fencing token differs from the received fencing value (here by
`0.05` seconds) is drained anyway — the claim "timer_active false, or stored
token ≠ received value, implies the call returns empty and leaves the record
unchanged" is false of the code, which never reads `timer_active` and
compares fencing tokens with a `0.1`-second tolerance. -/
theorem C2_contraexemplo :
    ¬ (obter_e_limpar_mensagens_acumuladas "5511999990000"
        (some ⟨some 100050000, [montarMensagem mensagemOi 100000000],
               100050000, "Oi", false⟩) 100000000 =
      ([], some ⟨some 100050000, [montarMensagem mensagemOi 100000000],
                 100050000, "Oi", false⟩)) := by
  decide

/-- C2 (amended): a Fire call returns the empty list and leaves the stored
row unchanged whenever the row is absent, or the stored fencing token (read
as `0` when the timer attribute was removed) differs from the received
fencing value by more than `0.1` seconds, or the pending-message list is
empty; the `timer_active` flag is not consulted. -/
theorem C2_emendado (cod : String) (item : Option SessaoItem) (fencing : Tempo) :
    (item = none → obter_e_limpar_mensagens_acumuladas cod item fencing = ([], none)) ∧
    (∀ it, item = some it →
      (100000 : Int) < |it.timer_timestamp.getD 0 - fencing| →
      obter_e_limpar_mensagens_acumuladas cod item fencing = ([], some it)) ∧
    (∀ it, item = some it → it.pending_messages = [] →
      obter_e_limpar_mensagens_acumuladas cod item fencing = ([], some it)) := by
  refine ⟨?_, ?_, ?_⟩
  · rintro rfl; rfl
  · rintro it rfl h
    simp [obter_e_limpar_mensagens_acumuladas, h]
  · rintro it rfl h
    simp only [obter_e_limpar_mensagens_acumuladas]
    split
    · rfl
    · simp [h]

/-- C2 (witness for the amended statement): the three no-op situations at
concrete inputs. -/
theorem C2_emendado_testemunha :
    obter_e_limpar_mensagens_acumuladas "c" none 7 = ([], none) ∧
    obter_e_limpar_mensagens_acumuladas "c"
        (some ⟨some 1000000, [montarMensagem mensagemOi 1000000], 1000000, "Oi", true⟩) 7 =
      ([], some ⟨some 1000000, [montarMensagem mensagemOi 1000000], 1000000, "Oi", true⟩) ∧
    obter_e_limpar_mensagens_acumuladas "c" (some ⟨some 7, [], 7, "", false⟩) 7 =
      ([], some ⟨some 7, [], 7, "", false⟩) :=
  ⟨(C2_emendado "c" none 7).1 rfl,
   (C2_emendado "c" _ 7).2.1 _ rfl (by decide),
   (C2_emendado "c" _ 7).2.2 _ rfl rfl⟩

/-- C3: `armazenar_mensagem_pendente` with no active-timer row creates a
fresh batch holding only the new message, fences it with the current
instant, activates the timer, schedules a wakeup after the initial delay
carrying that instant, and returns `deve_processar = False`; with an active
timer it appends the message, re-fences with the new instant, schedules a
wakeup after the (shorter) extension delay carrying the new instant, and
returns `deve_processar = False`. -/
theorem C3_aceitar (cod : String) (item : Option SessaoItem)
    (m : MensagemEntrada) (t : Tempo) :
    (timerAtivo item = false →
      armazenar_mensagem_pendente cod item m t =
        (some ⟨some t, [montarMensagem m t], t, m.texto, true⟩,
         ⟨false, true, some 1, false, false⟩,
         ⟨"processar_mensagens_acumuladas", cod, t, MESSAGE_ACCUMULATION_DELAY⟩)) ∧
    (∀ it, item = some it → it.timer_active = true →
      armazenar_mensagem_pendente cod item m t =
        (some { it with
                  pending_messages := it.pending_messages ++ [montarMensagem m t],
                  last_message_timestamp := t, last_message_text := m.texto,
                  timer_timestamp := some t },
         ⟨false, false, some (it.pending_messages.length + 1), true, false⟩,
         ⟨"processar_mensagens_acumuladas", cod, t, MESSAGE_EXTENSION_DELAY⟩)) ∧
    MESSAGE_EXTENSION_DELAY < MESSAGE_ACCUMULATION_DELAY := by
  refine ⟨?_, ?_, by decide⟩
  · intro h
    cases item with
    | none => rfl
    | some it =>
      simp only [timerAtivo] at h
      simp [armazenar_mensagem_pendente, h, agendar_processamento]
  · rintro it rfl h
    simp [armazenar_mensagem_pendente, h, agendar_processamento]

/-- C3 (witness): both branches at concrete inputs. -/
theorem C3_aceitar_testemunha :
    armazenar_mensagem_pendente "c" none mensagemOi 1000000 =
      (some ⟨some 1000000, [montarMensagem mensagemOi 1000000], 1000000, "Oi", true⟩,
       ⟨false, true, some 1, false, false⟩,
       ⟨"processar_mensagens_acumuladas", "c", 1000000, MESSAGE_ACCUMULATION_DELAY⟩) ∧
    armazenar_mensagem_pendente "c"
        (some ⟨some 1000000, [montarMensagem mensagemOi 1000000], 1000000, "Oi", true⟩)
        mensagemBomDia 3000000 =
      (some ⟨some 3000000,
             [montarMensagem mensagemOi 1000000, montarMensagem mensagemBomDia 3000000],
             3000000, "bom dia", true⟩,
       ⟨false, false, some 2, true, false⟩,
       ⟨"processar_mensagens_acumuladas", "c", 3000000, MESSAGE_EXTENSION_DELAY⟩) :=
  ⟨(C3_aceitar "c" none mensagemOi 1000000).1 rfl,
   (C3_aceitar "c" _ mensagemBomDia 3000000).2.1 _ rfl rfl⟩

/-- C4: if reading or writing the debounce store raises, the `except`
handler of `armazenar_mensagem_pendente` returns `deve_processar = True`, so
the message is processed solo instead of being dropped. -/
theorem C4_falha_armazenamento (falha_leitura falha_escrita : Bool)
    (h : falha_leitura = true ∨ falha_escrita = true)
    (cod : String) (item : Option SessaoItem) (m : MensagemEntrada) (t : Tempo) :
    (armazenar_mensagem_pendente_excecoes falha_leitura falha_escrita
        cod item m t).2.1.deve_processar = true := by
  rcases h with h | h
  · simp [armazenar_mensagem_pendente_excecoes, h]
  · cases falha_leitura <;> simp [armazenar_mensagem_pendente_excecoes, h]

/-- C4 (witness): a write failure at a concrete input. -/
theorem C4_falha_armazenamento_testemunha :
    (armazenar_mensagem_pendente_excecoes false true
        "c" none mensagemOi 1000000).2.1.deve_processar = true :=
  C4_falha_armazenamento false true (Or.inr rfl) "c" none mensagemOi 1000000

/-! ### Ledger-record lemmas -/

/-- Every pair produced by `_get_previous_negotiation_data` has an
allow-listed key and carries, unchanged, the truthy value stored in the
prior record. -/
theorem herdado_caracteriza (prev : Option Registro) (p : String × Valor)
    (h : p ∈ _get_previous_negotiation_data prev) :
    p.1 ∈ immutable_fields ∧ obter (prev.getD []) p.1 = some p.2 ∧
      verdadeiro p.2 = true := by
  cases prev with
  | none => simp [_get_previous_negotiation_data] at h
  | some preg =>
    simp only [_get_previous_negotiation_data] at h
    rw [List.mem_filterMap] at h
    obtain ⟨campo, hmem, heq⟩ := h
    cases hv : obter preg campo with
    | none =>
        rw [hv] at heq
        have heq2 : (none : Option (String × Valor)) = some p := heq
        exact absurd heq2 (by simp)
    | some v =>
        rw [hv] at heq
        have heq2 : (if verdadeiro v = true then some (campo, v) else none) = some p := heq
        by_cases ht : verdadeiro v = true
        · rw [if_pos ht] at heq2
          obtain rfl := Option.some.inj heq2
          exact ⟨hmem, hv, ht⟩
        · rw [if_neg ht] at heq2
          exact absurd heq2 (by simp)

/-- A present-and-truthy allow-listed field is inherited. -/
theorem herdado_dentro (preg : Registro) (campo : String) (v : Valor)
    (hc : campo ∈ immutable_fields) (hv : obter preg campo = some v)
    (ht : verdadeiro v = true) :
    (campo, v) ∈ _get_previous_negotiation_data (some preg) := by
  simp only [_get_previous_negotiation_data]
  rw [List.mem_filterMap]
  refine ⟨campo, hc, ?_⟩
  have hred :
      (match obter preg campo with
        | some v => if verdadeiro v = true then some (campo, v) else none
        | none => none) =
        (if verdadeiro v = true then some (campo, v) else none) := by
    rw [hv]
  rw [hred, if_pos ht]

/-- C10: the inheritance pass copies an allow-listed field only when its
stored value is truthy — a present value that is `0`, an empty string, an
empty list or an empty object is dropped even though the field is on the
allow-list. -/
theorem C10_fato_nao_verdadeiro (preg : Registro) (campo : String) (v : Valor)
    (hv : obter preg campo = some v) (hf : verdadeiro v = false) :
    obter (_get_previous_negotiation_data (some preg)) campo = none := by
  unfold obter
  rw [Option.map_eq_none', List.find?_eq_none]
  intro p hp hdec
  have hcampo : p.1 = campo := of_decide_eq_true hdec
  obtain ⟨-, h2, h3⟩ := herdado_caracteriza (some preg) p hp
  have h2g : obter preg campo = some p.2 := by rw [← hcampo]; exact h2
  rw [hv] at h2g
  obtain rfl := Option.some.inj h2g
  rw [h3] at hf
  exact absurd hf (by decide)

/-- C10 (witness): a stored `carga_id = 0` is on the allow-list and present,
yet dropped by the inheritance pass. -/
theorem C10_testemunha :
    obter (_get_previous_negotiation_data
      (some [("carga_id", Valor.numero 0)])) "carga_id" = none :=
  C10_fato_nao_verdadeiro [("carga_id", Valor.numero 0)] "carga_id"
    (Valor.numero 0) rfl rfl

/-- In-place overwrite of key `campo` does not affect searches for another
key. -/
theorem busca_mapa_outra (r : Registro) (campo outro : String) (v : Valor)
    (h : campo ≠ outro) :
    List.find? (fun p => p.1 = outro)
        (r.map (fun p => if p.1 = campo then (campo, v) else p)) =
      List.find? (fun p => p.1 = outro) r := by
  induction r with
  | nil => rfl
  | cons p resto ih =>
    by_cases hp : p.1 = campo
    · rw [List.map_cons, if_pos hp,
          List.find?_cons_of_neg _ (by simpa using h),
          List.find?_cons_of_neg _ (by simp [hp, h]), ih]
    · rw [List.map_cons, if_neg hp, List.find?_cons, List.find?_cons, ih]

/-- In-place overwrite of a present key `campo` makes its search return the
new pair. -/
theorem busca_mapa_mesma (r : Registro) (campo : String) (v : Valor)
    (hpres : (List.find? (fun p => p.1 = campo) r).isSome = true) :
    List.find? (fun p => p.1 = campo)
        (r.map (fun p => if p.1 = campo then (campo, v) else p)) =
      some (campo, v) := by
  induction r with
  | nil => simp at hpres
  | cons p resto ih =>
    by_cases hp : p.1 = campo
    · rw [List.map_cons, if_pos hp, List.find?_cons_of_pos _ (by simp)]
    · rw [List.find?_cons_of_neg _ (by simpa using hp)] at hpres
      rw [List.map_cons, if_neg hp, List.find?_cons_of_neg _ (by simpa using hp)]
      exact ih hpres

/-- Overwriting key `campo` leaves lookups of other keys unchanged. -/
theorem obter_definir_outra (r : Registro) (campo outro : String) (v : Valor)
    (h : campo ≠ outro) : obter (definir r campo v) outro = obter r outro := by
  unfold definir
  split
  · unfold obter
    rw [busca_mapa_outra r campo outro v h]
  · unfold obter
    rw [List.find?_append]
    have hnada : List.find? (fun p => p.1 = outro) [(campo, v)] = none := by
      simp [List.find?, h]
    rw [hnada, Option.or_none]

/-- Overwriting key `campo` makes its lookup return the new value. -/
theorem obter_definir_mesma (r : Registro) (campo : String) (v : Valor) :
    obter (definir r campo v) campo = some v := by
  unfold definir
  split
  case isTrue hpres =>
    unfold obter
    rw [busca_mapa_mesma r campo v hpres]
    rfl
  case isFalse hpres =>
    unfold obter
    rw [List.find?_append]
    have hnada : List.find? (fun p => p.1 = campo) r = none := by
      cases hf : List.find? (fun p => p.1 = campo) r with
      | none => rfl
      | some q => rw [hf] at hpres; simp at hpres
    rw [hnada]
    simp [List.find?]

/-- `item.update(novos)` leaves lookups of keys absent from `novos`
unchanged. -/
theorem obter_atualizar_fora (novos : Registro) (r : Registro) (campo : String)
    (h : ∀ p ∈ novos, p.1 ≠ campo) :
    obter (atualizar r novos) campo = obter r campo := by
  induction novos generalizing r with
  | nil => rfl
  | cons q resto ih =>
    unfold atualizar
    rw [List.foldl_cons]
    have hq : q.1 ≠ campo := h q (by simp)
    calc obter (List.foldl (fun acc p => definir acc p.1 p.2) (definir r q.1 q.2) resto) campo
        = obter (definir r q.1 q.2) campo :=
          ih (definir r q.1 q.2) (fun p hp => h p (by simp [hp]))
      _ = obter r campo := obter_definir_outra r q.1 campo q.2 hq

/-- `item.update(novos)` makes the lookup of a key of `novos` (whose keys
are distinct) return its value. -/
theorem obter_atualizar_dentro (novos : Registro) (r : Registro)
    (campo : String) (v : Valor) (hnd : (novos.map Prod.fst).Nodup)
    (hmem : (campo, v) ∈ novos) :
    obter (atualizar r novos) campo = some v := by
  induction novos generalizing r with
  | nil => simp at hmem
  | cons q resto ih =>
    unfold atualizar
    rw [List.foldl_cons]
    rw [List.map_cons, List.nodup_cons] at hnd
    rcases List.mem_cons.mp hmem with heq | hresto
    · obtain rfl := heq.symm
      have hfora : ∀ p ∈ resto, p.1 ≠ campo := by
        intro p hp hpc
        have hm : p.1 ∈ List.map Prod.fst resto := List.mem_map_of_mem Prod.fst hp
        rw [hpc] at hm
        exact hnd.1 hm
      calc obter (List.foldl (fun acc p => definir acc p.1 p.2) (definir r campo v) resto) campo
          = obter (definir r campo v) campo := obter_atualizar_fora resto _ campo hfora
        _ = some v := obter_definir_mesma r campo v
    · exact ih (definir r q.1 q.2) hnd.2 hresto

/-- A key/value pair of a registro with distinct keys is what its lookup
returns. -/
theorem obter_de_mem (r : Registro) (campo : String) (v : Valor)
    (hnd : (r.map Prod.fst).Nodup) (hmem : (campo, v) ∈ r) :
    obter r campo = some v := by
  induction r with
  | nil => simp at hmem
  | cons q resto ih =>
    rw [List.map_cons, List.nodup_cons] at hnd
    rcases List.mem_cons.mp hmem with heq | hresto
    · obtain rfl := heq.symm
      unfold obter
      rw [List.find?_cons_of_pos _ (by simp)]
      rfl
    · have hq : q.1 ≠ campo := by
        intro hpc
        have hm : campo ∈ List.map Prod.fst resto := by
          have hm2 : Prod.fst (campo, v) ∈ List.map Prod.fst resto :=
            List.mem_map_of_mem Prod.fst hresto
          exact hm2
        rw [← hpc] at hm
        exact hnd.1 hm
      unfold obter
      rw [List.find?_cons_of_neg _ (by simpa using hq)]
      exact ih hnd.2 hresto

/-- The keys produced by the inheritance pass form a sublist of the
allow-list. -/
theorem herdados_sublista (preg : Registro) :
    ((_get_previous_negotiation_data (some preg)).map Prod.fst).Sublist
      immutable_fields := by
  simp only [_get_previous_negotiation_data]
  generalize immutable_fields = campos
  induction campos with
  | nil => simp
  | cons c resto ih =>
    cases hv : obter preg c with
    | none =>
        simp only [List.filterMap_cons, hv]
        exact ih.cons c
    | some v =>
      by_cases ht : verdadeiro v = true
      · simp only [List.filterMap_cons, hv, if_pos ht, List.map_cons]
        exact ih.cons₂ c
      · simp only [List.filterMap_cons, hv, if_neg ht]
        exact ih.cons c

/-- The inheritance pass produces distinct keys. -/
theorem herdados_nodup (preg : Registro) :
    ((_get_previous_negotiation_data (some preg)).map Prod.fst).Nodup :=
  (herdados_sublista preg).nodup (by decide)

/-- Decimal renderings are never empty. -/
theorem algarismos_nao_nulo (n : Nat) : algarismos n ≠ [] := by
  unfold algarismos algarismosAux
  split
  · simp
  · exact List.append_ne_nil_of_right_ne_nil _ (by simp)

/-- Zero-padded renderings are never empty. -/
theorem preencher_nao_nulo (largura n : Nat) : preencher largura n ≠ [] := by
  unfold preencher
  exact List.append_ne_nil_of_right_ne_nil _ (algarismos_nao_nulo n)

/-- Packing a nonempty character list never yields the empty string. -/
theorem mk_nao_vazia {l : List Char} (h : l ≠ []) : String.mk l ≠ "" := by
  intro he
  exact h (congrArg String.data he)

/-- The session-pointer format never renders as the empty string. -/
theorem strftime_completo_nao_vazio (d : DataHora) : strftime_completo d ≠ "" := by
  unfold strftime_completo
  apply mk_nao_vazia
  simp [List.append_eq_nil]

/-- The hour-bucket format never renders as the empty string. -/
theorem strftime_hora_nao_vazio (d : DataHora) : strftime_hora d ≠ "" := by
  unfold strftime_hora
  apply mk_nao_vazia
  simp [List.append_eq_nil]

/-- A nonempty string is not falsy. -/
theorem textoFalsy_falso {s : String} (h : s ≠ "") : textoFalsy (some s) = false := by
  obtain ⟨l⟩ := s
  cases l with
  | nil => exact absurd rfl h
  | cons c resto => rfl

/-- Base-field lookups of the freshly assembled item. -/
theorem itemNovo_telefone (telefone tempo_sessao session_id : String)
    (nio : Option String) :
    obter (itemNovo telefone tempo_sessao session_id nio) "telefone" =
      some (.texto telefone) := by
  cases nio <;> rfl

theorem itemNovo_tempo_sessao (telefone tempo_sessao session_id : String)
    (nio : Option String) :
    obter (itemNovo telefone tempo_sessao session_id nio) "tempo_sessao" =
      some (.texto tempo_sessao) := by
  cases nio <;> rfl

theorem itemNovo_session_id (telefone tempo_sessao session_id : String)
    (nio : Option String) :
    obter (itemNovo telefone tempo_sessao session_id nio) "session_id" =
      some (.texto session_id) := by
  cases nio <;> rfl

/-- The fresh item holds no field beyond its (up to) four fixed keys. -/
theorem itemNovo_fora (telefone tempo_sessao session_id : String)
    (nio : Option String) (campo : String) (hc1 : campo ≠ "telefone")
    (hc2 : campo ≠ "tempo_sessao") (hc3 : campo ≠ "session_id")
    (hc4 : campo ≠ "negociacao_iniciada_em") :
    obter (itemNovo telefone tempo_sessao session_id nio) campo = none := by
  unfold obter
  rw [Option.map_eq_none', List.find?_eq_none]
  intro p hp hdec
  have hcampo : p.1 = campo := of_decide_eq_true hdec
  cases nio with
  | none =>
      simp only [itemNovo, List.mem_cons, List.not_mem_nil, or_false] at hp
      rcases hp with rfl | rfl | rfl
      · exact hc1 hcampo.symm
      · exact hc2 hcampo.symm
      · exact hc3 hcampo.symm
  | some n =>
      simp only [itemNovo, List.mem_append, List.mem_cons,
        List.not_mem_nil, or_false] at hp
      rcases hp with (rfl | rfl | rfl) | rfl
      · exact hc1 hcampo.symm
      · exact hc2 hcampo.symm
      · exact hc3 hcampo.symm
      · exact hc4 hcampo.symm

/-- Every pair surviving the memory-validity pass comes from the inheritance
pass (allow-listed key, value unchanged from the prior record, truthy). -/
theorem herancaFinal_caracteriza (prev : Option Registro) (agora : Int)
    (p : String × Valor) (h : p ∈ herancaFinal prev agora) :
    p ∈ _get_previous_negotiation_data prev := by
  simp only [herancaFinal] at h
  cases hm : obter (_get_previous_negotiation_data prev) "tempo_memoria" with
  | none => rw [hm] at h; exact h
  | some v =>
      rw [hm] at h
      have h2 : p ∈ (if _is_memory_valid (valorStr v) agora = true then
          _get_previous_negotiation_data prev
        else remover (_get_previous_negotiation_data prev) "tempo_memoria") := h
      by_cases hval : _is_memory_valid (valorStr v) agora = true
      · rw [if_pos hval] at h2; exact h2
      · rw [if_neg hval] at h2
        exact (List.mem_filter.mp h2).1

/-- The memory-validity pass keeps distinct keys distinct. -/
theorem herancaFinal_nodup (preg : Registro) (agora : Int) :
    ((herancaFinal (some preg) agora).map Prod.fst).Nodup := by
  simp only [herancaFinal]
  cases hm : obter (_get_previous_negotiation_data (some preg)) "tempo_memoria" with
  | none => exact herdados_nodup preg
  | some v =>
      show (List.map Prod.fst (if _is_memory_valid (valorStr v) agora = true then
          _get_previous_negotiation_data (some preg)
        else remover (_get_previous_negotiation_data (some preg)) "tempo_memoria")).Nodup
      by_cases hval : _is_memory_valid (valorStr v) agora = true
      · rw [if_pos hval]; exact herdados_nodup preg
      · rw [if_neg hval]
        refine List.Sublist.nodup ?_ (herdados_nodup preg)
        exact ((List.filter_sublist _).map Prod.fst)

/-- A non-`tempo_memoria` inherited pair survives the memory-validity
pass. -/
theorem herancaFinal_mantem (prev : Option Registro) (agora : Int)
    (campo : String) (v : Valor) (hne : campo ≠ "tempo_memoria")
    (h : (campo, v) ∈ _get_previous_negotiation_data prev) :
    (campo, v) ∈ herancaFinal prev agora := by
  simp only [herancaFinal]
  cases hm : obter (_get_previous_negotiation_data prev) "tempo_memoria" with
  | none => exact h
  | some w =>
      show (campo, v) ∈ (if _is_memory_valid (valorStr w) agora = true then
          _get_previous_negotiation_data prev
        else remover (_get_previous_negotiation_data prev) "tempo_memoria")
      by_cases hval : _is_memory_valid (valorStr w) agora = true
      · rw [if_pos hval]; exact h
      · rw [if_neg hval]
        exact List.mem_filter.mpr ⟨h, by simpa using hne⟩

/-- A still-valid inherited `tempo_memoria` survives the memory-validity
pass. -/
theorem herancaFinal_memoria (preg : Registro) (agora : Int) (v : Valor)
    (h : ("tempo_memoria", v) ∈ _get_previous_negotiation_data (some preg))
    (hval : _is_memory_valid (valorStr v) agora = true) :
    ("tempo_memoria", v) ∈ herancaFinal (some preg) agora := by
  simp only [herancaFinal]
  have hobt : obter (_get_previous_negotiation_data (some preg)) "tempo_memoria" =
      some v := obter_de_mem _ _ _ (herdados_nodup preg) h
  rw [hobt]
  show ("tempo_memoria", v) ∈ (if _is_memory_valid (valorStr v) agora = true then
      _get_previous_negotiation_data (some preg)
    else remover (_get_previous_negotiation_data (some preg)) "tempo_memoria")
  rw [if_pos hval]
  exact h

/-- Characterization of the record written by
`_save_session_timestamp_to_negociacao` when its parameters pass the falsy
guard: the base fields hold the arguments, present-and-truthy allow-listed
facts of the prior record are carried unchanged (`tempo_memoria` only while
still valid), and no other field appears. -/
theorem salvar_caracteriza (prev : Option Registro)
    (telefone tempo_sessao session_id : String) (nio : Option String) (agora : Int)
    (h1 : telefone ≠ "") (h2 : tempo_sessao ≠ "") (h3 : session_id ≠ "") :
    ∃ reg, _save_session_timestamp_to_negociacao prev telefone tempo_sessao
        session_id nio agora = some reg ∧
      obter reg "telefone" = some (.texto telefone) ∧
      obter reg "tempo_sessao" = some (.texto tempo_sessao) ∧
      obter reg "session_id" = some (.texto session_id) ∧
      (∀ campo v, campo ∈ immutable_fields → campo ≠ "tempo_memoria" →
        obter (prev.getD []) campo = some v → verdadeiro v = true →
        obter reg campo = some v) ∧
      (∀ v, obter (prev.getD []) "tempo_memoria" = some v → verdadeiro v = true →
        _is_memory_valid (valorStr v) agora = true →
        obter reg "tempo_memoria" = some v) ∧
      (∀ campo, campo ∉ immutable_fields → campo ≠ "telefone" →
        campo ≠ "tempo_sessao" → campo ≠ "session_id" →
        campo ≠ "negociacao_iniciada_em" → obter reg campo = none) := by
  unfold _save_session_timestamp_to_negociacao
  rw [if_neg (by push_neg; exact ⟨h1, h2, h3⟩)]
  by_cases hvazio : (_get_previous_negotiation_data prev).isEmpty = true
  · refine ⟨itemNovo telefone tempo_sessao session_id nio, by rw [if_pos hvazio],
      itemNovo_telefone .., itemNovo_tempo_sessao .., itemNovo_session_id ..,
      ?_, ?_, ?_⟩
    · intro campo v hcampo hne hobt ht
      exfalso
      cases prev with
      | none => simp [obter] at hobt
      | some preg =>
          have hmem := herdado_dentro preg campo v hcampo hobt ht
          rw [List.isEmpty_iff] at hvazio
          rw [hvazio] at hmem
          simp at hmem
    · intro v hobt ht hval
      exfalso
      cases prev with
      | none => simp [obter] at hobt
      | some preg =>
          have hmem := herdado_dentro preg "tempo_memoria" v (by decide) hobt ht
          rw [List.isEmpty_iff] at hvazio
          rw [hvazio] at hmem
          simp at hmem
    · intro campo hc0 hc1 hc2 hc3 hc4
      exact itemNovo_fora telefone tempo_sessao session_id nio campo hc1 hc2 hc3 hc4
  · have hprev : ∃ preg, prev = some preg := by
      cases prev with
      | none => exact absurd rfl hvazio
      | some preg => exact ⟨preg, rfl⟩
    obtain ⟨preg, rfl⟩ := hprev
    have hchaves : ∀ p ∈ herancaFinal (some preg) agora, p.1 ∈ immutable_fields :=
      fun p hp => (herdado_caracteriza (some preg) p
        (herancaFinal_caracteriza (some preg) agora p hp)).1
    refine ⟨atualizar (itemNovo telefone tempo_sessao session_id nio)
        (herancaFinal (some preg) agora), by rw [if_neg hvazio], ?_, ?_, ?_, ?_, ?_, ?_⟩
    · rw [obter_atualizar_fora _ _ _
        (fun p hp hpc => by
          have := hchaves p hp; rw [hpc] at this; revert this; decide)]
      exact itemNovo_telefone ..
    · rw [obter_atualizar_fora _ _ _
        (fun p hp hpc => by
          have := hchaves p hp; rw [hpc] at this; revert this; decide)]
      exact itemNovo_tempo_sessao ..
    · rw [obter_atualizar_fora _ _ _
        (fun p hp hpc => by
          have := hchaves p hp; rw [hpc] at this; revert this; decide)]
      exact itemNovo_session_id ..
    · intro campo v hcampo hne hobt ht
      have hmem := herdado_dentro preg campo v hcampo hobt ht
      exact obter_atualizar_dentro _ _ _ _ (herancaFinal_nodup preg agora)
        (herancaFinal_mantem (some preg) agora campo v hne hmem)
    · intro v hobt ht hval
      have hmem := herdado_dentro preg "tempo_memoria" v (by decide) hobt ht
      exact obter_atualizar_dentro _ _ _ _ (herancaFinal_nodup preg agora)
        (herancaFinal_memoria preg agora v hmem hval)
    · intro campo hc0 hc1 hc2 hc3 hc4
      rw [obter_atualizar_fora _ _ _
        (fun p hp hpc => by
          have := hchaves p hp; rw [hpc] at this; exact hc0 this)]
      exact itemNovo_fora telefone tempo_sessao session_id nio campo hc1 hc2 hc3 hc4

/-- Evaluation of `_get_or_create_session_id` when the latest record holds a
nonempty `tempo_sessao` and a parseable nonempty `session_id`: the call
reduces to the age test against the 3600-second window and the bucket
comparison. -/
theorem sessao_avaliada (telefone : String) (htel : telefone ≠ "")
    (preg : Registro) (ts sid : String)
    (hts : obter preg "tempo_sessao" = some (.texto ts)) (hts2 : ts ≠ "")
    (hsid : obter preg "session_id" = some (.texto sid)) (hsid2 : sid ≠ "")
    (sit : Int) (hparse : _parse_timestamp_to_unix sid = some sit) (now : DataHora) :
    _get_or_create_session_id telefone (some preg) now =
      (if timestampDe now - sit < 3600 then
        if ts = strftime_hora (truncarHora now) then some ⟨sid, false, none⟩
        else some ⟨sid, false,
          _save_session_timestamp_to_negociacao (some preg) telefone
            (strftime_hora (truncarHora now)) sid
            (some (strftime_completo now)) (timestampDe now)⟩
      else some ⟨strftime_completo now, true,
        _save_session_timestamp_to_negociacao (some preg) telefone
          (strftime_hora (truncarHora now)) (strftime_completo now)
          (some (strftime_completo now)) (timestampDe now)⟩) := by
  have hget : _get_session_timestamp_from_negociacao (some preg) = (some ts, some sid) := by
    simp only [_get_session_timestamp_from_negociacao, hts, hsid]
    have hverd : verdadeiro (Valor.texto sid) = true := by
      simp only [verdadeiro]
      obtain ⟨l⟩ := sid
      cases l with
      | nil => exact absurd rfl hsid2
      | cons c resto => rfl
    rw [if_pos hverd]
    rfl
  simp only [_get_or_create_session_id, hget, if_neg htel,
    textoFalsy_falso hts2, textoFalsy_falso hsid2, Bool.or_self, Bool.false_or,
    if_neg (by simp : ¬ (false : Bool) = true)]
  simp only [Option.getD, hparse]

/-- C5: with an existing parseable session pointer, the call renews (fresh
pointer, `renewed = true`) exactly when the pointer age reaches 3600
seconds; any strictly smaller age (3599 included) reuses the stored pointer
with `renewed = false`. -/
theorem C5_limiar_renovacao (telefone : String) (htel : telefone ≠ "")
    (preg : Registro) (ts sid : String)
    (hts : obter preg "tempo_sessao" = some (.texto ts)) (hts2 : ts ≠ "")
    (hsid : obter preg "session_id" = some (.texto sid)) (hsid2 : sid ≠ "")
    (sit : Int) (hparse : _parse_timestamp_to_unix sid = some sit) (now : DataHora) :
    ∃ r, _get_or_create_session_id telefone (some preg) now = some r ∧
      (r.session_renewed = true ↔ 3600 ≤ timestampDe now - sit) ∧
      (timestampDe now - sit < 3600 → r.session_id = sid) ∧
      (3600 ≤ timestampDe now - sit → r.session_id = strftime_completo now) := by
  rw [sessao_avaliada telefone htel preg ts sid hts hts2 hsid hsid2 sit hparse now]
  by_cases hidade : timestampDe now - sit < 3600
  · rw [if_pos hidade]
    by_cases hb : ts = strftime_hora (truncarHora now)
    · rw [if_pos hb]
      exact ⟨_, rfl, iff_of_false (by simp) (by omega), fun _ => rfl,
        fun h => absurd h (by omega)⟩
    · rw [if_neg hb]
      exact ⟨_, rfl, iff_of_false (by simp) (by omega), fun _ => rfl,
        fun h => absurd h (by omega)⟩
  · rw [if_neg hidade]
    exact ⟨_, rfl, iff_of_true rfl (by omega), fun h => absurd h (by omega),
      fun _ => rfl⟩

/-- C5 (witness): age 3599 seconds reuses the stored pointer without
renewal. -/
theorem C5_limiar_renovacao_testemunha :
    ∃ r, _get_or_create_session_id "5511999990000" (some registroExemplo)
        instante3599 = some r ∧
      (r.session_renewed = true ↔ 3600 ≤ timestampDe instante3599 - 1700000000) ∧
      (timestampDe instante3599 - 1700000000 < 3600 → r.session_id = "1700000000") ∧
      (3600 ≤ timestampDe instante3599 - 1700000000 →
        r.session_id = strftime_completo instante3599) :=
  C5_limiar_renovacao "5511999990000" (by decide) registroExemplo
    "2023-11-14T22:00:00Z" "1700000000" rfl (by decide) rfl (by decide)
    1700000000 (by decide) instante3599

/-- C6: a message inside the 3600-second window but in a fresh wall-clock
hour reuses the session pointer (`renewed = false`) while persisting a new
ledger record whose bucket is the current hour and whose `session_id` is the
reused pointer. -/
theorem C6_rotacao_balde (telefone : String) (htel : telefone ≠ "")
    (preg : Registro) (ts sid : String)
    (hts : obter preg "tempo_sessao" = some (.texto ts)) (hts2 : ts ≠ "")
    (hsid : obter preg "session_id" = some (.texto sid)) (hsid2 : sid ≠ "")
    (sit : Int) (hparse : _parse_timestamp_to_unix sid = some sit) (now : DataHora)
    (hidade : timestampDe now - sit < 3600)
    (hbalde : ts ≠ strftime_hora (truncarHora now)) :
    ∃ reg, _get_or_create_session_id telefone (some preg) now =
        some ⟨sid, false, some reg⟩ ∧
      obter reg "tempo_sessao" = some (.texto (strftime_hora (truncarHora now))) ∧
      obter reg "session_id" = some (.texto sid) := by
  rw [sessao_avaliada telefone htel preg ts sid hts hts2 hsid hsid2 sit hparse now]
  rw [if_pos hidade, if_neg hbalde]
  obtain ⟨reg, hsave, _, hobt2, hobt3, _, _, _⟩ :=
    salvar_caracteriza (some preg) telefone (strftime_hora (truncarHora now)) sid
      (some (strftime_completo now)) (timestampDe now) htel
      (strftime_hora_nao_vazio (truncarHora now)) hsid2
  exact ⟨reg, by rw [hsave], hobt2, hobt3⟩

/-- C6 (witness): pointer created in bucket 22:00, message at 23:13 within
the window — same pointer, bucket rotated. -/
theorem C6_rotacao_balde_testemunha :
    ∃ reg, _get_or_create_session_id "5511999990000" (some registroExemplo)
        instante3599 = some ⟨"1700000000", false, some reg⟩ ∧
      obter reg "tempo_sessao" =
        some (.texto (strftime_hora (truncarHora instante3599))) ∧
      obter reg "session_id" = some (.texto "1700000000") :=
  C6_rotacao_balde "5511999990000" (by decide) registroExemplo
    "2023-11-14T22:00:00Z" "1700000000" rfl (by decide) rfl (by decide)
    1700000000 (by decide) instante3599 (by decide) (by decide)

/-- C7 (counterexample): on a renewal, `carga_id` is allow-listed and
present in the prior record (with value `0`), yet the newly persisted record
does not carry it — "every allow-listed fact present in the prior record
appears unchanged" is false of the code, which also requires the value to be
truthy. -/
theorem C7_contraexemplo :
    obter registroCargaZero "carga_id" = some (Valor.numero 0) ∧
    (_get_or_create_session_id "5511999990000" (some registroCargaZero)
        instante6400).map
      (fun r => (r.session_renewed,
        r.registro_salvo.map (fun reg => obter reg "carga_id"))) =
      some (true, some none) :=
  ⟨rfl, rfl⟩

/-- C7 (amended): after a renewal, every allow-listed immutable fact that is
present **with a truthy value** in the prior latest record appears unchanged
in the newly persisted record, and no field outside the allow-list (beyond
the four freshly written session fields) is carried forward. -/
theorem C7_herdar_emendado (telefone : String) (htel : telefone ≠ "")
    (preg : Registro) (ts sid : String)
    (hts : obter preg "tempo_sessao" = some (.texto ts)) (hts2 : ts ≠ "")
    (hsid : obter preg "session_id" = some (.texto sid)) (hsid2 : sid ≠ "")
    (sit : Int) (hparse : _parse_timestamp_to_unix sid = some sit) (now : DataHora)
    (hidade : 3600 ≤ timestampDe now - sit) :
    ∃ reg, _get_or_create_session_id telefone (some preg) now =
        some ⟨strftime_completo now, true, some reg⟩ ∧
      (∀ campo v, campo ∈ immutable_fields → campo ≠ "tempo_memoria" →
        obter preg campo = some v → verdadeiro v = true →
        obter reg campo = some v) ∧
      (∀ campo, campo ∉ immutable_fields → campo ≠ "telefone" →
        campo ≠ "tempo_sessao" → campo ≠ "session_id" →
        campo ≠ "negociacao_iniciada_em" → obter reg campo = none) := by
  rw [sessao_avaliada telefone htel preg ts sid hts hts2 hsid hsid2 sit hparse now]
  rw [if_neg (by omega)]
  obtain ⟨reg, hsave, _, _, _, hherda, _, hfora⟩ :=
    salvar_caracteriza (some preg) telefone (strftime_hora (truncarHora now))
      (strftime_completo now) (some (strftime_completo now)) (timestampDe now)
      htel (strftime_hora_nao_vazio (truncarHora now))
      (strftime_completo_nao_vazio now)
  exact ⟨reg, by rw [hsave], hherda, hfora⟩

/-- C7 (witness for the amended statement): a truthy `carga_id = 42`
survives a renewal; the non-allow-listed `oferta_atual` does not. -/
theorem C7_herdar_emendado_testemunha :
    (∃ reg, _get_or_create_session_id "5511999990000" (some registroComCarga)
        instante6400 = some ⟨strftime_completo instante6400, true, some reg⟩ ∧
      (∀ campo v, campo ∈ immutable_fields → campo ≠ "tempo_memoria" →
        obter registroComCarga campo = some v → verdadeiro v = true →
        obter reg campo = some v) ∧
      (∀ campo, campo ∉ immutable_fields → campo ≠ "telefone" →
        campo ≠ "tempo_sessao" → campo ≠ "session_id" →
        campo ≠ "negociacao_iniciada_em" → obter reg campo = none)) ∧
    obter registroComCarga "carga_id" = some (Valor.numero 42) ∧
    "carga_id" ∈ immutable_fields ∧ "oferta_atual" ∉ immutable_fields :=
  ⟨C7_herdar_emendado "5511999990000" (by decide) registroComCarga
      "2023-11-14T22:00:00Z" "1700000000" rfl (by decide) rfl (by decide)
      1700000000 (by decide) instante6400 (by decide),
    rfl, by decide, by decide⟩

/-- C8: a renewal does not disturb a still-valid memory pointer — when the
prior record's `tempo_memoria` parses to an instant less than 604800 seconds
old, the newly persisted record carries the identical value. -/
theorem C8_memoria_intacta (telefone : String) (htel : telefone ≠ "")
    (preg : Registro) (ts sid : String)
    (hts : obter preg "tempo_sessao" = some (.texto ts)) (hts2 : ts ≠ "")
    (hsid : obter preg "session_id" = some (.texto sid)) (hsid2 : sid ≠ "")
    (sit : Int) (hparse : _parse_timestamp_to_unix sid = some sit) (now : DataHora)
    (hidade : 3600 ≤ timestampDe now - sit)
    (v : Valor) (hm : obter preg "tempo_memoria" = some v)
    (hverd : verdadeiro v = true)
    (mts : Int) (hmts : _parse_timestamp_to_unix (valorStr v) = some mts)
    (hjanela : timestampDe now - mts < 604800) :
    ∃ reg, _get_or_create_session_id telefone (some preg) now =
        some ⟨strftime_completo now, true, some reg⟩ ∧
      obter reg "tempo_memoria" = some v := by
  rw [sessao_avaliada telefone htel preg ts sid hts hts2 hsid hsid2 sit hparse now]
  rw [if_neg (by omega)]
  obtain ⟨reg, hsave, _, _, _, _, hmem, _⟩ :=
    salvar_caracteriza (some preg) telefone (strftime_hora (truncarHora now))
      (strftime_completo now) (some (strftime_completo now)) (timestampDe now)
      htel (strftime_hora_nao_vazio (truncarHora now))
      (strftime_completo_nao_vazio now)
  refine ⟨reg, by rw [hsave], hmem v hm hverd ?_⟩
  unfold _is_memory_valid
  have hnv : valorStr v ≠ "" := by
    intro h0
    rw [h0] at hmts
    simp [_parse_timestamp_to_unix] at hmts
  rw [if_neg hnv, hmts]
  exact decide_eq_true (by omega)

/-- C8 (witness): renewing at the next hour boundary keeps a two-day-old
memory pointer byte-for-byte. -/
theorem C8_memoria_intacta_testemunha :
    ∃ reg, _get_or_create_session_id "5511999990000" (some registroComMemoria)
        instante6400 = some ⟨strftime_completo instante6400, true, some reg⟩ ∧
      obter reg "tempo_memoria" =
        some (Valor.texto "2023-11-13T22:13:20.000000Z") :=
  C8_memoria_intacta "5511999990000" (by decide) registroComMemoria
    "2023-11-14T22:00:00Z" "1700000000" rfl (by decide) rfl (by decide)
    1700000000 (by decide) instante6400 (by decide)
    (Valor.texto "2023-11-13T22:13:20.000000Z") rfl rfl
    1699913600 (by decide) (by decide)

/-- Normal form: a 13-digit list with the country prefix is returned
untouched. -/
theorem forma_normal_55 (l : List Char)
    (h : l.take 2 = ['5', '5'] ∧ l.length = 13) :
    normalizar_telefone_limpo l = String.mk l := by
  unfold normalizar_telefone_limpo
  rw [if_pos h]

/-- Normal form: a 13-digit list without the country prefix is returned
untouched. -/
theorem forma_normal_13 (l : List Char) (h : l.length = 13)
    (h55 : ¬ l.take 2 = ['5', '5']) :
    normalizar_telefone_limpo l = String.mk l := by
  unfold normalizar_telefone_limpo
  rw [if_neg (fun hB => h55 hB.1), if_neg (by omega), if_pos ⟨h, h55⟩]

/-- Normal form: fewer than 11 digits pass through. -/
theorem forma_normal_curta (l : List Char) (h : l.length < 11) :
    normalizar_telefone_limpo l = String.mk l := by
  unfold normalizar_telefone_limpo
  rw [if_neg (fun hB => by omega), if_neg (by omega),
      if_neg (fun hB => by omega), if_neg (by omega), if_pos h]

/-- Normal form: exactly 12 digits fall through every branch. -/
theorem forma_normal_12 (l : List Char) (h : l.length = 12) :
    normalizar_telefone_limpo l = String.mk l := by
  unfold normalizar_telefone_limpo
  rw [if_neg (fun hB => by omega), if_neg (by omega),
      if_neg (fun hB => by omega), if_neg (by omega), if_neg (by omega)]

/-- Normal form: more than 13 digits whose trailing 13 do not start with the
country prefix pass through. -/
theorem forma_normal_longa (l : List Char) (h : 13 < l.length)
    (hf : ¬ fatia l (l.length - 13) (l.length - 11) = ['5', '5']) :
    normalizar_telefone_limpo l = String.mk l := by
  unfold normalizar_telefone_limpo
  rw [if_neg (fun hB => by omega), if_neg (by omega),
      if_neg (fun hB => by omega), if_pos h, if_neg (fun hB => hf hB.2)]

/-- The `endswith` guard of the long branch always holds of the trailing-13
slice. -/
theorem termina_em_cauda (l : List Char) (h : 13 < l.length) :
    termina_em l (l.drop (l.length - 13)) = true := by
  unfold termina_em
  apply decide_eq_true
  have harit : l.length - (l.drop (l.length - 13)).length = l.length - 13 := by
    rw [List.length_drop]
    omega
  rw [harit]

/-- `normalizar_telefone` is the identity on an all-digit string that the
branch ladder leaves untouched. -/
theorem normalizar_fixo_em (r : List Char) (hd : ∀ c ∈ r, c.isDigit = true)
    (hnf : normalizar_telefone_limpo r = String.mk r) :
    normalizar_telefone (String.mk r) = String.mk r := by
  cases r with
  | nil => rfl
  | cons c resto =>
      unfold normalizar_telefone
      rw [if_neg (mk_nao_vazia (by simp))]
      show normalizar_telefone_limpo ((c :: resto).filter Char.isDigit) =
        String.mk (c :: resto)
      rw [List.filter_eq_self.mpr hd]
      exact hnf

/-- `normalizar_telefone` fixes every output of the branch ladder on a
digit-only input. -/
theorem normalizar_limpo_fixo (l : List Char) (hd : ∀ c ∈ l, c.isDigit = true) :
    normalizar_telefone (normalizar_telefone_limpo l) =
      normalizar_telefone_limpo l := by
  by_cases hB1 : l.take 2 = ['5', '5'] ∧ l.length = 13
  · have hN : normalizar_telefone_limpo l = String.mk l := forma_normal_55 l hB1
    rw [hN]
    exact normalizar_fixo_em l hd (hN ▸ forma_normal_55 l hB1)
  · by_cases hB2 : l.length = 11
    · have hN : normalizar_telefone_limpo l = String.mk ('5' :: '5' :: l) := by
        unfold normalizar_telefone_limpo
        rw [if_neg hB1, if_pos hB2]
      have hd2 : ∀ c ∈ '5' :: '5' :: l, c.isDigit = true := by
        intro c hc
        rcases List.mem_cons.mp hc with rfl | hc2
        · rfl
        · rcases List.mem_cons.mp hc2 with rfl | hc3
          · rfl
          · exact hd c hc3
      rw [hN]
      exact normalizar_fixo_em ('5' :: '5' :: l) hd2
        (forma_normal_55 _ ⟨rfl, by simp [hB2]⟩)
    · by_cases hB3 : l.length = 13 ∧ ¬ l.take 2 = ['5', '5']
      · have hN : normalizar_telefone_limpo l = String.mk l := by
          unfold normalizar_telefone_limpo
          rw [if_neg hB1, if_neg hB2, if_pos hB3]
        rw [hN]
        exact normalizar_fixo_em l hd (forma_normal_13 l hB3.1 hB3.2)
      · by_cases hB4 : 13 < l.length
        · by_cases hB4i : termina_em l (l.drop (l.length - 13)) = true ∧
              fatia l (l.length - 13) (l.length - 11) = ['5', '5']
          · have hN : normalizar_telefone_limpo l =
                String.mk (l.drop (l.length - 13)) := by
              unfold normalizar_telefone_limpo
              rw [if_neg hB1, if_neg hB2, if_neg hB3, if_pos hB4, if_pos hB4i]
            have hd2 : ∀ c ∈ l.drop (l.length - 13), c.isDigit = true :=
              fun c hc => hd c ((List.drop_sublist _ _).subset hc)
            have htake : (l.drop (l.length - 13)).take 2 = ['5', '5'] := by
              have hf := hB4i.2
              unfold fatia at hf
              have harit : l.length - 11 - (l.length - 13) = 2 := by omega
              rw [harit] at hf
              exact hf
            have hlen : (l.drop (l.length - 13)).length = 13 := by
              rw [List.length_drop]
              omega
            rw [hN]
            exact normalizar_fixo_em _ hd2 (forma_normal_55 _ ⟨htake, hlen⟩)
          · have hN : normalizar_telefone_limpo l = String.mk l := by
              unfold normalizar_telefone_limpo
              rw [if_neg hB1, if_neg hB2, if_neg hB3, if_pos hB4, if_neg hB4i]
            have hf : ¬ fatia l (l.length - 13) (l.length - 11) = ['5', '5'] :=
              fun hfat => hB4i ⟨termina_em_cauda l hB4, hfat⟩
            rw [hN]
            exact normalizar_fixo_em l hd (forma_normal_longa l hB4 hf)
        · by_cases hB5 : l.length < 11
          · have hN : normalizar_telefone_limpo l = String.mk l := by
              unfold normalizar_telefone_limpo
              rw [if_neg hB1, if_neg hB2, if_neg hB3, if_neg hB4, if_pos hB5]
            rw [hN]
            exact normalizar_fixo_em l hd (forma_normal_curta l hB5)
          · have hN : normalizar_telefone_limpo l = String.mk l := by
              unfold normalizar_telefone_limpo
              rw [if_neg hB1, if_neg hB2, if_neg hB3, if_neg hB4, if_neg hB5]
            have hlen : l.length = 12 ∨ l.length = 13 := by omega
            rcases hlen with h12 | h13
            · rw [hN]
              exact normalizar_fixo_em l hd (forma_normal_12 l h12)
            · exfalso
              by_cases h55 : l.take 2 = ['5', '5']
              · exact hB1 ⟨h55, h13⟩
              · exact hB3 ⟨h13, h55⟩

/-- C9: contact normalization is idempotent — renormalizing an already
normalized number returns it unchanged, for every input string. -/
theorem C9_normalizacao_idempotente (telefone : String) :
    normalizar_telefone (normalizar_telefone telefone) =
      normalizar_telefone telefone := by
  by_cases h0 : telefone = ""
  · rw [h0]
    rfl
  · have h1 : normalizar_telefone telefone =
        normalizar_telefone_limpo (telefone.toList.filter Char.isDigit) := by
      unfold normalizar_telefone
      rw [if_neg h0]
    rw [h1]
    exact normalizar_limpo_fixo _ (fun c hc => (List.mem_filter.mp hc).2)

/-- Unfolding equation: one arrival step. -/
theorem passo_chegada (cod : String) (s : Option SessaoItem)
    (m : MensagemEntrada) (t : Tempo) :
    passo cod s (.chegada m t) = ((armazenar_mensagem_pendente cod s m t).1, []) :=
  rfl

/-- Unfolding equation: one Fire step. -/
theorem passo_disparo (cod : String) (s : Option SessaoItem) (f : Tempo) :
    passo cod s (.disparo f) =
      ((obter_e_limpar_mensagens_acumuladas cod s f).2,
       [(obter_e_limpar_mensagens_acumuladas cod s f).1]) :=
  rfl

/-- Unfolding equation: running one more event. -/
theorem execEventos_cons (cod : String) (s : Option SessaoItem) (e : Evento)
    (resto : List Evento) :
    execEventos cod s (e :: resto) =
      ((execEventos cod (passo cod s e).1 resto).1,
       (passo cod s e).2 ++ (execEventos cod (passo cod s e).1 resto).2) :=
  rfl

/-- Unfolding equation: the active-timer premise at an arrival. -/
theorem ativo_cons_chegada (cod : String) (s : Option SessaoItem) (houve : Bool)
    (m : MensagemEntrada) (t : Tempo) (resto : List Evento) :
    chegadasSobreTimerAtivo cod s houve (.chegada m t :: resto) =
      ((!houve || timerAtivo s) &&
        chegadasSobreTimerAtivo cod (passo cod s (.chegada m t)).1 true resto) :=
  rfl

/-- Unfolding equation: the premise skips Fire events. -/
theorem ativo_cons_disparo (cod : String) (s : Option SessaoItem) (houve : Bool)
    (f : Tempo) (resto : List Evento) :
    chegadasSobreTimerAtivo cod s houve (.disparo f :: resto) =
      chegadasSobreTimerAtivo cod (passo cod s (.disparo f)).1 houve resto :=
  rfl

/-- Running a concatenation of event lists runs them in sequence. -/
theorem execEventos_append (cod : String) (a b : List Evento) :
    ∀ s, execEventos cod s (a ++ b) =
      ((execEventos cod (execEventos cod s a).1 b).1,
       (execEventos cod s a).2 ++ (execEventos cod (execEventos cod s a).1 b).2) := by
  induction a with
  | nil => intro s; simp [execEventos]
  | cons e resto ih =>
      intro s
      rw [List.cons_append, execEventos_cons, execEventos_cons, ih]
      simp [execEventos_cons, List.append_assoc]

/-- Arrivals of a concatenation. -/
theorem chegadas_append (a b : List Evento) :
    chegadas (a ++ b) = chegadas a ++ chegadas b := by
  induction a with
  | nil => rfl
  | cons e resto ih => cases e <;> simp [chegadas, ih]

/-- The active-timer premise splits along a concatenation. -/
theorem ativo_append (cod : String) (a b : List Evento) :
    ∀ s houve, chegadasSobreTimerAtivo cod s houve (a ++ b) =
      (chegadasSobreTimerAtivo cod s houve a &&
       chegadasSobreTimerAtivo cod (execEventos cod s a).1
         (houve || !(chegadas a).isEmpty) b) := by
  induction a with
  | nil =>
      intro s houve
      simp [chegadasSobreTimerAtivo, execEventos, chegadas]
  | cons e resto ih =>
      intro s houve
      cases e with
      | chegada m t =>
          rw [List.cons_append, ativo_cons_chegada, ativo_cons_chegada,
              ih (passo cod s (.chegada m t)).1 true]
          simp [chegadas, execEventos_cons, Bool.and_assoc]
      | disparo f =>
          rw [List.cons_append, ativo_cons_disparo, ativo_cons_disparo,
              ih (passo cod s (.disparo f)).1 houve]
          simp [chegadas, execEventos_cons]

/-- A Fire call on a drained row is a no-op returning nothing. -/
theorem disparo_em_drenado (cod : String) (f : Tempo) (it : SessaoItem)
    (hp : it.pending_messages = []) (htt : it.timer_timestamp = none) :
    obter_e_limpar_mensagens_acumuladas cod (some it) f = ([], some it) := by
  simp only [obter_e_limpar_mensagens_acumuladas, htt, hp, Option.getD_none]
  split
  · rfl
  · rw [if_pos trivial]

/-- From a drained row, a trace whose arrivals all require an active timer
has no arrivals at all, leaves the row untouched, and all its Fire calls
return empty. -/
theorem exec_drenado (cod : String) (evs : List Evento) :
    ∀ it : SessaoItem, it.pending_messages = [] → it.timer_active = false →
      it.timer_timestamp = none →
      chegadasSobreTimerAtivo cod (some it) true evs = true →
      chegadas evs = [] ∧ (execEventos cod (some it) evs).1 = some it ∧
        (execEventos cod (some it) evs).2.filter (fun l => !l.isEmpty) = [] := by
  induction evs with
  | nil => intro it hp hta htt hact; exact ⟨rfl, rfl, rfl⟩
  | cons e resto ih =>
      intro it hp hta htt hact
      cases e with
      | chegada m t =>
          exfalso
          rw [ativo_cons_chegada] at hact
          simp [timerAtivo, hta] at hact
      | disparo f =>
          have hstep : passo cod (some it) (.disparo f) = (some it, [[]]) := by
            rw [passo_disparo, disparo_em_drenado cod f it hp htt]
          rw [ativo_cons_disparo, hstep] at hact
          obtain ⟨h1, h2, h3⟩ := ih it hp hta htt hact
          rw [execEventos_cons, hstep]
          refine ⟨?_, ?_, ?_⟩
          · simpa [chegadas] using h1
          · simpa using h2
          · simpa using h3

/-- Invariant of a burst in progress: from an armed batch holding the
arrivals `c₀` (fenced by the last arrival instant), a trace whose arrivals
all happen on an active timer either keeps accumulating (no Fire succeeded,
all Fire calls returned empty) or was drained exactly once, by a Fire that
captured every message of the burst in arrival order. -/
theorem exec_lote (cod : String) (evs : List Evento) :
    ∀ (it : SessaoItem) (c0 : List (MensagemEntrada × Tempo)), c0 ≠ [] →
      it.pending_messages = c0.map (fun x => montarMensagem x.1 x.2) →
      it.timer_active = true →
      it.timer_timestamp = (c0.getLast?).map Prod.snd →
      chegadasSobreTimerAtivo cod (some it) true evs = true →
      (∃ it2, (execEventos cod (some it) evs).1 = some it2 ∧
        it2.pending_messages =
          ((c0 ++ chegadas evs).map (fun x => montarMensagem x.1 x.2)) ∧
        it2.timer_active = true ∧
        it2.timer_timestamp = ((c0 ++ chegadas evs).getLast?).map Prod.snd ∧
        (execEventos cod (some it) evs).2.filter (fun l => !l.isEmpty) = []) ∨
      (∃ it2, (execEventos cod (some it) evs).1 = some it2 ∧
        it2.pending_messages = [] ∧ it2.timer_active = false ∧
        it2.timer_timestamp = none ∧
        (execEventos cod (some it) evs).2.filter (fun l => !l.isEmpty) =
          [(c0 ++ chegadas evs).map (fun x => montarMensagem x.1 x.2)]) := by
  induction evs with
  | nil =>
      intro it c0 hne hpend hta htt hact
      left
      exact ⟨it, rfl, by simpa [chegadas], hta, by simpa [chegadas], rfl⟩
  | cons e resto ih =>
      intro it c0 hne hpend hta htt hact
      cases e with
      | chegada m t =>
          have hstep : passo cod (some it) (.chegada m t) =
              (some { it with
                        pending_messages :=
                          it.pending_messages ++ [montarMensagem m t],
                        last_message_timestamp := t, last_message_text := m.texto,
                        timer_timestamp := some t }, []) := by
            rw [passo_chegada]
            simp [armazenar_mensagem_pendente, hta]
          rw [ativo_cons_chegada, hstep] at hact
          simp only [Bool.not_true, Bool.false_or, Bool.and_eq_true] at hact
          have hrec := ih _ (c0 ++ [(m, t)]) (by simp)
            (by simp [hpend]) (by simpa using hta)
            (by simp [List.getLast?_concat]) hact.2
          rw [execEventos_cons, hstep]
          rcases hrec with ⟨it2, h1, h2, h3, h4, h5⟩ | ⟨it2, h1, h2, h3, h4, h5⟩
          · left
            refine ⟨it2, by simpa using h1, ?_, h3, ?_, by simpa using h5⟩
            · rw [h2]
              simp [chegadas]
            · rw [h4]
              simp [chegadas]
          · right
            refine ⟨it2, by simpa using h1, h2, h3, h4, ?_⟩
            simpa [chegadas, List.append_assoc] using h5
      | disparo f =>
          cases hg : c0.getLast? with
          | none =>
              exact absurd (List.getLast?_eq_none_iff.mp hg) hne
          | some ultimo =>
              have httv : it.timer_timestamp = some ultimo.2 := by
                rw [htt, hg]
                rfl
              by_cases hmatch : (100000 : Int) < |ultimo.2 - f|
              · have hstep : passo cod (some it) (.disparo f) = (some it, [[]]) := by
                  rw [passo_disparo]
                  have hob : obter_e_limpar_mensagens_acumuladas cod (some it) f =
                      ([], some it) := by
                    simp only [obter_e_limpar_mensagens_acumuladas, httv,
                      Option.getD_some]
                    rw [if_pos hmatch]
                  rw [hob]
                rw [ativo_cons_disparo, hstep] at hact
                have hrec := ih it c0 hne hpend hta htt hact
                rw [execEventos_cons, hstep]
                rcases hrec with ⟨it2, h1, h2, h3, h4, h5⟩ | ⟨it2, h1, h2, h3, h4, h5⟩
                · left
                  exact ⟨it2, by simpa using h1, by simpa [chegadas] using h2, h3,
                    by simpa [chegadas] using h4, by simpa using h5⟩
                · right
                  refine ⟨it2, by simpa using h1, h2, h3, h4, ?_⟩
                  simpa [chegadas] using h5
              · have hpne : ¬ it.pending_messages = [] := by
                  rw [hpend]
                  simpa using hne
                have hstep : passo cod (some it) (.disparo f) =
                    (some ⟨none, [], it.last_message_timestamp,
                           it.last_message_text, false⟩,
                     [it.pending_messages]) := by
                  rw [passo_disparo]
                  have hob : obter_e_limpar_mensagens_acumuladas cod (some it) f =
                      (it.pending_messages,
                       some ⟨none, [], it.last_message_timestamp,
                             it.last_message_text, false⟩) := by
                    simp only [obter_e_limpar_mensagens_acumuladas, httv,
                      Option.getD_some]
                    rw [if_neg hmatch, if_neg hpne]
                  rw [hob]
                rw [ativo_cons_disparo, hstep] at hact
                obtain ⟨hq1, hq2, hq3⟩ := exec_drenado cod resto _ rfl rfl rfl hact
                rw [execEventos_cons, hstep]
                right
                refine ⟨_, by simpa using hq2, rfl, rfl, rfl, ?_⟩
                have hchegadas : chegadas (Evento.disparo f :: resto) = [] := by
                  simpa [chegadas] using hq1
                rw [List.filter_append]
                simp only [hq3]
                rw [hchegadas]
                simp only [hpend]
                simp
                exact hne

/-- Running a burst from no stored row: either no message arrived (and every
Fire call returned empty), or the batch is still armed with all arrivals, or
it was drained exactly once with the whole burst. -/
theorem exec_desde_vazio (cod : String) (evs : List Evento)
    (hact : chegadasSobreTimerAtivo cod none false evs = true) :
    (chegadas evs = [] ∧ (execEventos cod none evs).1 = none ∧
      (execEventos cod none evs).2.filter (fun l => !l.isEmpty) = []) ∨
    (chegadas evs ≠ [] ∧
      ((∃ it2, (execEventos cod none evs).1 = some it2 ∧
        it2.pending_messages =
          ((chegadas evs).map (fun x => montarMensagem x.1 x.2)) ∧
        it2.timer_active = true ∧
        it2.timer_timestamp = ((chegadas evs).getLast?).map Prod.snd ∧
        (execEventos cod none evs).2.filter (fun l => !l.isEmpty) = []) ∨
      (∃ it2, (execEventos cod none evs).1 = some it2 ∧
        it2.pending_messages = [] ∧ it2.timer_active = false ∧
        it2.timer_timestamp = none ∧
        (execEventos cod none evs).2.filter (fun l => !l.isEmpty) =
          [(chegadas evs).map (fun x => montarMensagem x.1 x.2)]))) := by
  induction evs with
  | nil => exact Or.inl ⟨rfl, rfl, rfl⟩
  | cons e resto ih =>
      cases e with
      | disparo f =>
          have hstep : passo cod none (.disparo f) = (none, [[]]) := rfl
          rw [ativo_cons_disparo, hstep] at hact
          rcases ih hact with ⟨h1, h2, h3⟩ | ⟨h1, h2⟩
          · left
            rw [execEventos_cons, hstep]
            exact ⟨by simpa [chegadas] using h1, by simpa using h2,
              by simpa using h3⟩
          · right
            rw [execEventos_cons, hstep]
            refine ⟨by simpa [chegadas] using h1, ?_⟩
            rcases h2 with ⟨it2, g1, g2, g3, g4, g5⟩ | ⟨it2, g1, g2, g3, g4, g5⟩
            · exact Or.inl ⟨it2, by simpa using g1, by simpa [chegadas] using g2,
                g3, by simpa [chegadas] using g4, by simpa using g5⟩
            · exact Or.inr ⟨it2, by simpa using g1, g2, g3, g4,
                by simpa [chegadas] using g5⟩
      | chegada m t =>
          have hstep : passo cod none (.chegada m t) =
              (some ⟨some t, [montarMensagem m t], t, m.texto, true⟩, []) := rfl
          rw [ativo_cons_chegada, hstep] at hact
          simp only [timerAtivo, Bool.not_false, Bool.true_or,
            Bool.true_and] at hact
          have hrec := exec_lote cod resto
            ⟨some t, [montarMensagem m t], t, m.texto, true⟩ [(m, t)]
            (by simp) rfl rfl rfl hact
          right
          rw [execEventos_cons, hstep]
          refine ⟨by simp [chegadas], ?_⟩
          rcases hrec with ⟨it2, g1, g2, g3, g4, g5⟩ | ⟨it2, g1, g2, g3, g4, g5⟩
          · exact Or.inl ⟨it2, by simpa using g1, by simpa [chegadas] using g2,
              g3, by simpa [chegadas] using g4, by simpa using g5⟩
          · exact Or.inr ⟨it2, by simpa using g1, g2, g3, g4,
              by simpa [chegadas] using g5⟩

/-- C1: debounce coalescing.  For a burst starting from no stored row, in
which every later message arrives while the armed timer is still active, and
whose events are the N arrivals plus any set of scheduled wakeups of the
burst — with the wakeup fenced by the last arrival firing after all arrivals
— exactly one Fire call returns a non-empty batch, that batch holds all N
messages in arrival order, and every other Fire call returns the empty
list. -/
theorem C1_coalescencia_debounce (cod : String) (evs p q : List Evento)
    (c : List (MensagemEntrada × Tempo))
    (hc : chegadas evs = c) (hne : c ≠ [])
    (tN : Tempo) (htN : (c.getLast?).map Prod.snd = some tN)
    (hsplit : evs = p ++ Evento.disparo tN :: q) (hq : chegadas q = [])
    (hativo : chegadasSobreTimerAtivo cod none false evs = true) :
    (execEventos cod none evs).2.filter (fun l => !l.isEmpty) =
      [c.map (fun x => montarMensagem x.1 x.2)] := by
  subst hsplit
  rw [chegadas_append] at hc
  have hcq : chegadas (Evento.disparo tN :: q) = [] := by
    simpa [chegadas] using hq
  rw [hcq, List.append_nil] at hc
  rw [ativo_append, Bool.and_eq_true] at hativo
  obtain ⟨hactp, hact2⟩ := hativo
  have hvazio : (chegadas p).isEmpty = false := by
    rw [hc]
    exact List.isEmpty_eq_false.mpr hne
  rw [hvazio] at hact2
  simp only [Bool.not_false, Bool.or_true] at hact2
  rcases exec_desde_vazio cod p hactp with ⟨h1, _, _⟩ | ⟨_, hcase⟩
  · rw [hc] at h1
    exact absurd h1 hne
  rcases hcase with ⟨it, g1, g2, g3, g4, g5⟩ | ⟨it, g1, g2, g3, g4, g5⟩
  · -- the batch is still armed when the final wakeup fires: it drains now
    have httv : it.timer_timestamp = some tN := by
      rw [g4, hc, htN]
    have hpne : ¬ it.pending_messages = [] := by
      rw [g2, hc]
      simpa using hne
    have hstep : passo cod (some it) (.disparo tN) =
        (some ⟨none, [], it.last_message_timestamp,
               it.last_message_text, false⟩,
         [it.pending_messages]) := by
      rw [passo_disparo]
      have hob : obter_e_limpar_mensagens_acumuladas cod (some it) tN =
          (it.pending_messages,
           some ⟨none, [], it.last_message_timestamp,
                 it.last_message_text, false⟩) := by
        simp only [obter_e_limpar_mensagens_acumuladas, httv, Option.getD_some]
        rw [if_neg (by simp), if_neg hpne]
      rw [hob]
    rw [g1, ativo_cons_disparo, hstep] at hact2
    obtain ⟨hq1, hq2, hq3⟩ := exec_drenado cod q _ rfl rfl rfl hact2
    rw [execEventos_append, g1, execEventos_cons, hstep]
    rw [List.filter_append, g5, List.filter_append]
    simp only [hq3]
    rw [g2, hc]
    simp [hne]
  · -- a redundant within-tolerance wakeup already drained the whole burst
    have hstep : passo cod (some it) (.disparo tN) = (some it, [[]]) := by
      rw [passo_disparo, disparo_em_drenado cod tN it g2 g4]
    rw [g1, ativo_cons_disparo, hstep] at hact2
    obtain ⟨hq1, hq2, hq3⟩ := exec_drenado cod q it g2 g3 g4 hact2
    rw [execEventos_append, g1, execEventos_cons, hstep]
    rw [List.filter_append, g5, List.filter_append]
    simp only [hq3]
    rw [hc]
    simp

/-- C1 (witness): the two-message burst of the spec example yields exactly
one non-empty Fire — the re-armed wakeup — carrying both messages in
order. -/
theorem C1_coalescencia_debounce_testemunha :
    (execEventos "5511999990000" none eventosExemplo).2.filter
        (fun l => !l.isEmpty) =
      [[montarMensagem mensagemOi 1000000,
        montarMensagem mensagemBomDia 3000000]] :=
  C1_coalescencia_debounce "5511999990000" eventosExemplo
    [Evento.chegada mensagemOi 1000000, Evento.chegada mensagemBomDia 3000000,
     Evento.disparo 1000000]
    ([] : List Evento)
    [(mensagemOi, 1000000), (mensagemBomDia, 3000000)] rfl (by decide)
    3000000 rfl rfl rfl (by decide)
